import Mathlib

/-!
Shallow embedding of the dice betting bot (src/constants.py, src/game_logic.py,
src/handlers.py) and proofs about its round engine.

Modelling conventions:
* Python `dict`s keyed by user id are insertion-ordered association lists
  (`Dict`), with `dget` / `dset` mirroring `d.get(k)` / `d[k] = v`
  (update-in-place of the existing slot, append when the key is new).
* Python `set`s of user ids are duplicate-free insertion lists (`sadd`).
* `datetime.now()` values are abstract `Nat` timestamps passed in as a `now`
  parameter; scores and bet amounts are Python ints, modelled as `Int`.
* Telegram I/O (messages sent by the bot) is modelled as a list of emitted
  `Event`s; the two animated dice are modelled by the `d1 d2 : Nat` parameters
  of the roll callback (the source falls back to `random.randint(1,6)` on API
  failure, so the engine always receives two die values).
-/

namespace DiceBot

abbrev UserId := Nat

/-- A Python dict keyed by user id: an insertion-ordered association list. -/
abbrev Dict (α : Type) := List (UserId × α)

/-- `d.get(k)` / `d[k]`: the value at the first (only) slot with key `k`. -/
def dget {α : Type} : Dict α → UserId → Option α
  | [], _ => none
  | (k', v) :: rest, k => if k' = k then some v else dget rest k

/-- Replace the value in the first slot holding key `k` (no-op if absent). -/
def dreplace {α : Type} : Dict α → UserId → α → Dict α
  | [], _, _ => []
  | (k', v') :: rest, k, v =>
    if k' = k then (k, v) :: rest else (k', v') :: dreplace rest k v

/-- `d[k] = v`: update the existing slot in place, else append a new slot. -/
def dset {α : Type} (d : Dict α) (k : UserId) (v : α) : Dict α :=
  if (dget d k).isSome then dreplace d k v else d ++ [(k, v)]

/-- The keys of a dict, in slot order. -/
def dkeys {α : Type} (d : Dict α) : List UserId := d.map Prod.fst

/-- A dict arising from Python has pairwise distinct keys. -/
def NoDupKeys {α : Type} (d : Dict α) : Prop := (dkeys d).Nodup

/-- `d.get(k, 0)` on an integer-valued dict. -/
def lookup0 (d : Dict Int) (k : UserId) : Int := (dget d k).getD 0

/-- `s.add(x)` on a Python set modelled as a duplicate-free list. -/
def sadd (s : List UserId) (x : UserId) : List UserId :=
  if x ∈ s then s else s ++ [x]

/-! ## Data model (src/constants.py, src/game_logic.py)

`chat_id` is constant throughout a chat's data, so the embedding models a
single chat and omits the `chat_id` fields, the per-chat `group_admins` list
and the admin checks (authorization is outside the engine per the spec).
`last_active` is the abstract timestamp field `datetime.now()` writes to. -/

/-- `INITIAL_PLAYER_SCORE = 0` (src/constants.py line 5). -/
def INITIAL_PLAYER_SCORE : Int := 0

/-- `MIN_BET_AMOUNT = 100` (src/game_logic.py line 67). -/
def MIN_BET_AMOUNT : Int := 100

/-- One entry of `chat_data["player_stats"]`. -/
structure PlayerStats where
  username : String
  score : Int
  wins : Nat
  losses : Nat
  last_active : Nat
  deriving Repr, DecidableEq

/-- The three game states `WAITING_FOR_BETS, GAME_CLOSED, GAME_OVER = range(3)`. -/
inductive GameState where
  | WAITING_FOR_BETS
  | GAME_CLOSED
  | GAME_OVER
  deriving Repr, DecidableEq

/-- The three bet types `"big" | "small" | "lucky"`. -/
inductive BetType where
  | big
  | small
  | lucky
  deriving Repr, DecidableEq

/-- `self.bets = {"big": {}, "small": {}, "lucky": {}}`: one dict per bet type. -/
structure BetBook where
  big : Dict Int
  small : Dict Int
  lucky : Dict Int
  deriving Repr, DecidableEq

/-- Index a bet book by bet type (`self.bets[bet_type]`). -/
def BetBook.get (b : BetBook) : BetType → Dict Int
  | .big => b.big
  | .small => b.small
  | .lucky => b.lucky

/-- Write one bucket of a bet book (`self.bets[bet_type] = d`, as produced by
`self.bets[bet_type][user_id] = ...`). -/
def BetBook.set (b : BetBook) : BetType → Dict Int → BetBook
  | .big, d => { b with big := d }
  | .small, d => { b with small := d }
  | .lucky, d => { b with lucky := d }

/-- The `DiceGame` instance of src/game_logic.py (per-chat round object).
`start_time` and `chat_id` are omitted (unused by the modelled logic). -/
structure DiceGame where
  match_id : Nat
  bets : BetBook
  state : GameState
  result : Option Nat
  participants : List UserId
  deriving Repr, DecidableEq

/-- One record of `chat_data["match_history"]`. The `timestamp` field is
omitted; `bets` is the per-round snapshot the source stores. -/
structure MatchHistoryEntry where
  match_id : Nat
  result : Option Nat
  winner : BetType
  participants : Nat
  bets : BetBook
  deriving Repr, DecidableEq

/-- Modelled from the spec: `get_chat_data_for_id` is imported from
src/constants.py but its definition is not among the sources; the spec states
that a chat's match history is a bounded ring buffer of the most recent
`N = 20` entries, oldest dropped on append to a full buffer.  `histAppend` is
the `.append` of that buffer. -/
def histAppend (h : List MatchHistoryEntry) (e : MatchHistoryEntry) :
    List MatchHistoryEntry :=
  let h2 := h ++ [e]
  h2.drop (h2.length - 20)

/-- The per-chat record held in `global_data["all_chat_data"][chat_id]`
(match counter, player stats, match history, consecutive idle counter). -/
structure ChatData where
  match_counter : Nat
  player_stats : Dict PlayerStats
  match_history : List MatchHistoryEntry
  consecutive_idle_matches : Nat
  deriving Repr, DecidableEq

/-- Errors of `DiceGame.place_bet`, one per distinct failure message.  In the
source the insufficient-funds reply string indexes `player_stats['score']`
(the chat-level dict, not the player), which raises `KeyError` while the
message is built; the bet is rejected either way and no debit happens, so the
embedding keeps it as the `insufficientFunds` rejection. -/
inductive BetError where
  | notPositive
  | belowMinimum
  | insufficientFunds
  deriving Repr, DecidableEq

/-- Result of `DiceGame.place_bet`: the `(success, message)` pair becomes
`err` (`none` = success), plus the mutated game and chat data. -/
structure PlaceBetResult where
  err : Option BetError
  game : DiceGame
  chat : ChatData
  deriving Repr, DecidableEq

/-- Lines 53-60 of src/game_logic.py: `player_stats.setdefault(user_id, {...})`
followed by `player["last_active"] = datetime.now()` — the player entry as it
stands after the ensure-and-refresh preamble of `place_bet`. -/
def ensuredPlayer (cd : ChatData) (user_id : UserId) (username : String)
    (now : Nat) : PlayerStats :=
  { (dget cd.player_stats user_id).getD
      ⟨username, INITIAL_PLAYER_SCORE, 0, 0, now⟩ with
    last_active := now }

/-- `DiceGame.place_bet` (src/game_logic.py lines 32-95).  The player entry is
`setdefault`-created (initial score) and its `last_active` refreshed before
any validation; then the amount checks run in source order, and on success the
score is debited, the bucket accumulated, and the participant recorded. -/
def place_bet (g : DiceGame) (cd : ChatData) (user_id : UserId)
    (username : String) (bet_type : BetType) (amount : Int) (now : Nat) :
    PlaceBetResult :=
  let player := ensuredPlayer cd user_id username now
  let stats1 := dset cd.player_stats user_id player
  let cd1 := { cd with player_stats := stats1 }
  if amount ≤ 0 then
    ⟨some .notPositive, g, cd1⟩
  else if amount < MIN_BET_AMOUNT then
    ⟨some .belowMinimum, g, cd1⟩
  else if player.score < amount then
    ⟨some .insufficientFunds, g, cd1⟩
  else
    let player2 := { player with score := player.score - amount }
    let stats2 := dset stats1 user_id player2
    let bucket := g.bets.get bet_type
    let current_bet_on_type := lookup0 bucket user_id
    let g' := { g with
      bets := g.bets.set bet_type
        (dset bucket user_id (current_bet_on_type + amount)),
      participants := sadd g.participants user_id }
    ⟨none, g', { cd1 with player_stats := stats2 }⟩

/-- `DiceGame.determine_winner` (src/game_logic.py lines 97-109), on the dice
sum `self.result` (only called once the result is set). -/
def determine_winner (result : Nat) : BetType :=
  if result = 7 then .lucky
  else if result > 7 then .big
  else .small

/-- `sum(self.bets[bt].get(uid, 0) for bt in self.bets)`: a player's total
stake across the three buckets. -/
def totalBet (g : DiceGame) (uid : UserId) : Int :=
  lookup0 g.bets.big uid + lookup0 g.bets.small uid + lookup0 g.bets.lucky uid

/-- `any(bool(bet_type_dict) for bet_type_dict in self.bets.values())`. -/
def anyBetsPlaced (g : DiceGame) : Bool :=
  !g.bets.big.isEmpty || !g.bets.small.isEmpty || !g.bets.lucky.isEmpty

/-- One iteration of the winners loop of `DiceGame.payout` (lines 159-168):
credit `amount_bet * multiplier`, increment `wins`, refresh `last_active`,
record the payout; silently skipped when the user is missing from the stats. -/
def creditWinner (multiplier : Int) (now : Nat)
    (acc : Dict PlayerStats × Dict Int) (ub : UserId × Int) :
    Dict PlayerStats × Dict Int :=
  match dget acc.1 ub.1 with
  | some p =>
    let winnings := ub.2 * multiplier
    (dset acc.1 ub.1
      { p with score := p.score + winnings, wins := p.wins + 1, last_active := now },
     dset acc.2 ub.1 winnings)
  | none => acc

/-- The winners loop of `DiceGame.payout`, folded over the winning bucket. -/
def payoutWinners (multiplier : Int) (now : Nat) (stats : Dict PlayerStats)
    (winning_bets : Dict Int) : Dict PlayerStats × Dict Int :=
  winning_bets.foldl (creditWinner multiplier now) (stats, [])

/-- One iteration of the losers loop of `DiceGame.payout` (lines 173-179):
a participant with no bet on the winning type and a positive total stake gets
`losses` incremented. -/
def recordLoser (g : DiceGame) (winning_bets : Dict Int)
    (stats : Dict PlayerStats) (uid : UserId) : Dict PlayerStats :=
  if (dget winning_bets uid).isSome then stats
  else if totalBet g uid > 0 then
    match dget stats uid with
    | some p => dset stats uid { p with losses := p.losses + 1 }
    | none => stats
  else stats

/-- The losers loop of `DiceGame.payout`, folded over `self.participants`. -/
def payoutLosers (g : DiceGame) (winning_bets : Dict Int)
    (stats : Dict PlayerStats) : Dict PlayerStats :=
  g.participants.foldl (recordLoser g winning_bets) stats

/-- Result of `DiceGame.payout`: the returned triple plus the mutated chat. -/
structure PayoutResult where
  winner : BetType
  multiplier : Int
  payouts : Dict Int
  chat : ChatData
  deriving Repr, DecidableEq

/-- `DiceGame.payout` (src/game_logic.py lines 111-192): determine the winning
type and multiplier; with no bets at all, append a zero-participant history
entry and stop; with bets but an empty stats dict, stop without history;
otherwise credit winners, record losers, and append the history entry. -/
def payout (g : DiceGame) (cd : ChatData) (now : Nat) : PayoutResult :=
  let winner_type := determine_winner (g.result.getD 0)
  let winning_bets := g.bets.get winner_type
  let multiplier : Int := if winner_type = .lucky then 5 else 2
  if !(anyBetsPlaced g) then
    ⟨winner_type, multiplier, [],
      { cd with match_history := (histAppend cd.match_history
          ⟨g.match_id, g.result, winner_type, 0, ⟨[], [], []⟩⟩) }⟩
  else if cd.player_stats.isEmpty then
    ⟨winner_type, multiplier, [], cd⟩
  else
    let wres := payoutWinners multiplier now cd.player_stats winning_bets
    let stats2 := payoutLosers g winning_bets wres.1
    let hist2 := histAppend cd.match_history
      ⟨g.match_id, g.result, winner_type, g.participants.length, g.bets⟩
    ⟨winner_type, multiplier, wres.2,
      { cd with player_stats := stats2, match_history := hist2 }⟩

/-! ## Handler layer (src/handlers.py)

One chat's handler-visible state: the chat record, `context.chat_data`'s
`game`, job references and sequence counters, and the log of messages the bot
sent (events).  Timer jobs are modelled by the match id they were scheduled
for; a fired callback receives the `DiceGame` value its job captured
(`job.data`).  Python compares that captured object to
`context.chat_data["game"]` by identity; since `match_counter` hands every
round of a chat a distinct `match_id`, identity of rounds coincides with
equality of their match ids, which is how the staleness guards are modelled.
Error replies to users (no game, closed betting, bad format) are not modelled
as events; only the round-lifecycle messages are. -/

/-- `DiceGame.__init__` (src/game_logic.py lines 19-30): a fresh round with
empty bet book, state `WAITING_FOR_BETS`, no result and no participants. -/
def initGame (match_id : Nat) : DiceGame :=
  ⟨match_id, ⟨[], [], []⟩, .WAITING_FOR_BETS, none, []⟩

/-- Round-lifecycle messages sent by the bot. -/
inductive Event where
  | roundOpened (match_id : Nat)
  | betsClosed (match_id : Nat)
  | resultAnnounced (match_id : Nat)
  | autoStopped
  | sequenceCompleted
  | stoppedRefund (match_id : Nat)
  deriving Repr, DecidableEq

/-- Handler-visible state of one chat. -/
structure HState where
  chat : ChatData
  game : Option DiceGame
  close_bets_job : Option Nat
  roll_and_announce_job : Option Nat
  next_game_job : Bool
  num_matches_total : Option Nat
  current_match_index : Option Nat
  events : List Event
  deriving Repr, DecidableEq

/-- `_start_interactive_game_round` (src/handlers.py lines 138-183): take and
bump the chat's match counter, install a fresh `DiceGame` as the current game,
announce the round, and schedule the CLOSE timer. -/
def start_interactive_game_round (s : HState) : HState :=
  let mid := s.chat.match_counter
  let g : DiceGame := initGame mid
  { s with
    chat := { s.chat with match_counter := mid + 1 },
    game := some g,
    events := s.events ++ [Event.roundOpened mid],
    close_bets_job := some mid }

/-- `_manage_game_sequence` (src/handlers.py lines 186-230): fired by the
next-game job; with sequence counters present and rounds remaining, bump the
index and start the next round; with the sequence finished or the counters
missing, clear the sequence state.  The fired job is no longer pending. -/
def manage_game_sequence (s : HState) : HState :=
  let s := { s with next_game_job := false }
  match s.num_matches_total, s.current_match_index with
  | some total, some idx =>
    if idx < total then
      start_interactive_game_round { s with current_match_index := some (idx + 1) }
    else
      { s with num_matches_total := none
               current_match_index := none
               game := none
               events := s.events ++ [Event.sequenceCompleted] }
  | _, _ =>
    { s with num_matches_total := none, current_match_index := none, game := none }

/-- `close_bets_scheduled` (src/handlers.py lines 314-376).  `sched` is the
`DiceGame` the job captured as `job.data`.  The job reference is dropped, then
the staleness guard compares the captured round against the current one; when
current, the round is closed, the bet summary announced, and the ROLL timer
scheduled. -/
def close_bets_scheduled (sched : DiceGame) (s : HState) : HState :=
  let s1 := { s with close_bets_job := none }
  match s1.game with
  | none => s1
  | some cur =>
    if cur.match_id ≠ sched.match_id then s1
    else
      { s1 with
        game := some { cur with state := .GAME_CLOSED },
        events := s1.events ++ [Event.betsClosed cur.match_id],
        roll_and_announce_job := some cur.match_id }

/-- `roll_and_announce_scheduled` (src/handlers.py lines 379-544).  `sched` is
the captured round, `d1 d2` the two die values.  The job reference is dropped;
the source's staleness guard skips only when a different round is current AND
the captured round is not `GAME_CLOSED`; an already-settled round is skipped.
Otherwise the round is settled: state `GAME_OVER`, result set, `payout` run
against the chat, the result announced, then the idle-streak logic either
auto-stops (clearing game, sequence state and pending jobs), schedules the
next round of an active sequence, or clears the single finished round. -/
def roll_and_announce_scheduled (d1 d2 : Nat) (now : Nat) (sched : DiceGame)
    (s : HState) : HState :=
  let s1 := { s with roll_and_announce_job := none }
  let stale : Bool :=
    match s1.game with
    | some cur => cur.match_id != sched.match_id && sched.state != .GAME_CLOSED
    | none => false
  if stale then s1
  else if sched.state = .GAME_OVER then s1
  else
    let g1 : DiceGame := { sched with state := .GAME_OVER, result := some (d1 + d2) }
    let s2 :=
      match s1.game with
      | some cur => if cur.match_id = sched.match_id then { s1 with game := some g1 } else s1
      | none => s1
    let pr := payout g1 s2.chat now
    let s3 := { s2 with chat := pr.chat
                        events := s2.events ++ [Event.resultAnnounced sched.match_id] }
    let idle' := if g1.participants.isEmpty
      then s3.chat.consecutive_idle_matches + 1 else 0
    let s4 := { s3 with chat := { s3.chat with consecutive_idle_matches := idle' } }
    if idle' ≥ 3 then
      { s4 with
        events := s4.events ++ [Event.autoStopped],
        game := none, num_matches_total := none, current_match_index := none,
        next_game_job := false, close_bets_job := none }
    else if s4.num_matches_total.isSome then
      { s4 with next_game_job := true }
    else
      { s4 with game := none, next_game_job := false }

/-- `handle_bet` (src/handlers.py lines 600-672), after parsing: no active
game or closed betting is an error reply (unmodelled); otherwise
`place_bet` runs and, on success, the idle counter is reset to zero
(`button_callback` lines 547-597 is the same flow with `amount = 100`). -/
def handle_bet (uid : UserId) (username : String) (bt : BetType) (amount : Int)
    (now : Nat) (s : HState) : HState :=
  match s.game with
  | none => s
  | some g =>
    if g.state ≠ .WAITING_FOR_BETS then s
    else
      let r := place_bet g s.chat uid username bt amount now
      let cd' := if r.err.isNone
        then { r.chat with consecutive_idle_matches := 0 } else r.chat
      { s with game := some r.game, chat := cd' }

/-- The accumulation loop of `stop_game` (src/handlers.py lines 1180-1184):
`total_bets_by_user[uid] = total_bets_by_user.get(uid, 0) + amount_bet` over
one bucket. -/
def mergeAdd (acc b : Dict Int) : Dict Int :=
  b.foldl (fun a p => dset a p.1 (lookup0 a p.1 + p.2)) acc

/-- `total_bets_by_user` of `stop_game`: a player's stakes summed across the
three buckets, iterated in `self.bets.values()` order. -/
def totalBetsByUser (g : DiceGame) : Dict Int :=
  mergeAdd (mergeAdd (mergeAdd [] g.bets.big) g.bets.small) g.bets.lucky

/-- One iteration of the refund loop of `stop_game` (lines 1186-1199): credit
the aggregated stake back and refresh `last_active`; users missing from the
stats are skipped with a warning. -/
def refundStep (now : Nat) (stats : Dict PlayerStats) (ua : UserId × Int) :
    Dict PlayerStats :=
  match dget stats ua.1 with
  | some p => dset stats ua.1 { p with score := p.score + ua.2, last_active := now }
  | none => stats

/-- `stop_game` (src/handlers.py lines 1115-1219), after the admin check: with
no current game or an already-settled one, reply and change nothing; otherwise
cancel the three pending jobs, refund every user's aggregated stake, clear the
game and sequence state, and announce the stop. -/
def stop_game (now : Nat) (s : HState) : HState :=
  match s.game with
  | none => s
  | some cur =>
    if cur.state = .GAME_OVER then s
    else
      let stats' := (totalBetsByUser cur).foldl (refundStep now) s.chat.player_stats
      { s with
        chat := { s.chat with player_stats := stats' },
        close_bets_job := none, roll_and_announce_job := none,
        next_game_job := false,
        game := none, num_matches_total := none, current_match_index := none,
        events := s.events ++ [Event.stoppedRefund cur.match_id] }

/-- The score mutation of `adjust_score` (src/handlers.py lines 918-950): an
absent target is created with the initial score (via `get_chat_member`
success), then `score += amount_to_adjust` with no floor check and
`last_active` refreshed. -/
def adjust_score (stats : Dict PlayerStats) (target : UserId)
    (fetched_username : String) (amount : Int) (now : Nat) : Dict PlayerStats :=
  let stats1 :=
    match dget stats target with
    | some _ => stats
    | none => dset stats target ⟨fetched_username, INITIAL_PLAYER_SCORE, 0, 0, now⟩
  match dget stats1 target with
  | some p => dset stats1 target { p with score := p.score + amount, last_active := now }
  | none => stats1

/-- One requested bet placement (arguments of one `place_bet` call). -/
structure BetCmd where
  uid : UserId
  username : String
  bt : BetType
  amount : Int
  now : Nat
  deriving Repr, DecidableEq

/-- A round's worth of bet placements: each command runs through
`DiceGame.place_bet` against the accumulated game and chat data. -/
def runBets (g : DiceGame) (cd : ChatData) : List BetCmd → DiceGame × ChatData
  | [] => (g, cd)
  | c :: rest =>
    let r := place_bet g cd c.uid c.username c.bt c.amount c.now
    runBets r.game r.chat rest

/-- Every account stored in a stats dict has a non-negative balance. -/
def ScoresNonneg (d : Dict PlayerStats) : Prop :=
  ∀ up ∈ d, 0 ≤ (Prod.snd up).score

/-- Every stake recorded in a bet book is non-negative. -/
def BetsNonneg (g : DiceGame) : Prop :=
  ∀ bt : BetType, ∀ ua ∈ g.bets.get bt, 0 ≤ Prod.snd ua

theorem dget_append {α : Type} (d e : Dict α) (k : UserId) :
    dget (d ++ e) k = ((dget d k).rec (dget e k) (fun v => some v) : Option α) := by
  induction d with
  | nil => simp [dget]
  | cons hd tl ih =>
    obtain ⟨k', v⟩ := hd
    by_cases h : k' = k <;> simp [dget, h, ih]

theorem dget_dreplace_self {α : Type} (d : Dict α) (k : UserId) (v : α)
    (h : (dget d k).isSome) : dget (dreplace d k v) k = some v := by
  induction d with
  | nil => simp [dget] at h
  | cons hd tl ih =>
    obtain ⟨k', v'⟩ := hd
    by_cases hk : k' = k
    · simp [dget, dreplace, hk]
    · simp [dget, dreplace, hk] at h ⊢
      exact ih h

theorem dget_dreplace_ne {α : Type} (d : Dict α) (k k' : UserId) (v : α)
    (h : k' ≠ k) : dget (dreplace d k v) k' = dget d k' := by
  induction d with
  | nil => simp [dreplace]
  | cons hd tl ih =>
    obtain ⟨k₀, v₀⟩ := hd
    by_cases hk : k₀ = k
    · subst hk
      have hkk' : ¬ k₀ = k' := fun hc => h hc.symm
      simp [dreplace, dget, hkk']
    · simp [dreplace, hk, dget]
      by_cases hc : k₀ = k'
      · simp [hc]
      · simp [hc, ih]

theorem dget_dset_self {α : Type} (d : Dict α) (k : UserId) (v : α) :
    dget (dset d k v) k = some v := by
  unfold dset
  by_cases h : (dget d k).isSome
  · simp [h, dget_dreplace_self d k v h]
  · simp [h]
    rw [dget_append]
    simp at h
    simp [h, dget]

theorem dget_dset_ne {α : Type} (d : Dict α) (k k' : UserId) (v : α) (h : k' ≠ k) :
    dget (dset d k v) k' = dget d k' := by
  unfold dset
  by_cases hs : (dget d k).isSome
  · simp [hs, dget_dreplace_ne d k k' v h]
  · simp [hs]
    rw [dget_append]
    cases hg : dget d k' with
    | some v' => simp
    | none =>
      have hne : ¬ k = k' := fun hc => h hc.symm
      simp [dget, hne]

theorem dget_none_iff_not_mem_dkeys {α : Type} (d : Dict α) (k : UserId) :
    dget d k = none ↔ k ∉ dkeys d := by
  induction d with
  | nil => simp [dget, dkeys]
  | cons hd tl ih =>
    obtain ⟨k', v⟩ := hd
    by_cases h : k' = k
    · simp [dget, dkeys, h]
    · have hne : ¬ k = k' := fun hc => h hc.symm
      simp [dget, dkeys, h, hne]
      rw [ih]
      simp [dkeys]

theorem dget_isSome_iff_mem_dkeys {α : Type} (d : Dict α) (k : UserId) :
    (dget d k).isSome ↔ k ∈ dkeys d := by
  have hn := dget_none_iff_not_mem_dkeys d k
  cases hg : dget d k with
  | some v =>
    simp
    by_contra hmem
    rw [hg] at hn
    simp [hmem] at hn
  | none =>
    rw [hg] at hn
    simp [hn.mp rfl]

theorem mem_of_dget_eq_some {α : Type} (d : Dict α) (k : UserId) (v : α)
    (h : dget d k = some v) : (k, v) ∈ d := by
  induction d with
  | nil => simp [dget] at h
  | cons hd tl ih =>
    obtain ⟨k', v'⟩ := hd
    by_cases hk : k' = k
    · subst hk
      simp [dget] at h
      simp [h]
    · simp [dget, hk] at h
      simp [ih h]

theorem dkeys_dreplace {α : Type} (d : Dict α) (k : UserId) (v : α) :
    dkeys (dreplace d k v) = dkeys d := by
  induction d with
  | nil => simp [dreplace]
  | cons hd tl ih =>
    obtain ⟨k', v'⟩ := hd
    by_cases hk : k' = k
    · simp [dreplace, hk, dkeys]
    · simp [dreplace, hk, dkeys] at ih ⊢
      exact ih

theorem dkeys_dset {α : Type} (d : Dict α) (k : UserId) (v : α) :
    dkeys (dset d k v) = if (dget d k).isSome then dkeys d else dkeys d ++ [k] := by
  unfold dset
  by_cases h : (dget d k).isSome
  · simp [h, dkeys_dreplace]
  · simp [h, dkeys]

theorem noDupKeys_dset {α : Type} (d : Dict α) (k : UserId) (v : α)
    (h : NoDupKeys d) : NoDupKeys (dset d k v) := by
  unfold NoDupKeys at h ⊢
  rw [dkeys_dset]
  by_cases hs : (dget d k).isSome
  · simp [hs, h]
  · have hmem : k ∉ dkeys d := by
      rw [← dget_none_iff_not_mem_dkeys]
      cases hg : dget d k with
      | some v' => rw [hg] at hs; simp at hs
      | none => rfl
    simp [hs]
    simp [List.nodup_append, h, hmem]

theorem mem_dkeys_dset {α : Type} (d : Dict α) (k k' : UserId) (v : α) :
    k' ∈ dkeys (dset d k v) ↔ k' ∈ dkeys d ∨ k' = k := by
  rw [dkeys_dset]
  by_cases h : (dget d k).isSome
  · rw [dget_isSome_iff_mem_dkeys] at h
    rw [if_pos]
    · constructor
      · exact Or.inl
      · rintro (hm | he)
        · exact hm
        · exact he ▸ h
    · rw [dget_isSome_iff_mem_dkeys]
      exact h
  · rw [if_neg h]
    simp

/-! ## Dict fold lemmas -/

theorem mem_dset_cases {α : Type} (d : Dict α) (k : UserId) (v : α)
    (x : UserId × α) (h : x ∈ dset d k v) : x ∈ d ∨ x = (k, v) := by
  unfold dset at h
  by_cases hs : (dget d k).isSome
  · rw [if_pos hs] at h
    clear hs
    induction d with
    | nil => simp [dreplace] at h
    | cons hd tl ih =>
      obtain ⟨k₀, v₀⟩ := hd
      by_cases hk : k₀ = k
      · rw [dreplace, if_pos hk] at h
        rcases List.mem_cons.mp h with h1 | h2
        · exact Or.inr h1
        · exact Or.inl (List.mem_cons_of_mem _ h2)
      · rw [dreplace, if_neg hk] at h
        rcases List.mem_cons.mp h with h1 | h2
        · exact Or.inl (h1 ▸ List.mem_cons_self _ _)
        · rcases ih h2 with h3 | h4
          · exact Or.inl (List.mem_cons_of_mem _ h3)
          · exact Or.inr h4
  · rw [if_neg hs] at h
    rcases List.mem_append.mp h with h1 | h2
    · exact Or.inl h1
    · simp at h2
      exact Or.inr (by simp [h2])

theorem scoresNonneg_dset (d : Dict PlayerStats) (k : UserId) (v : PlayerStats)
    (h : ScoresNonneg d) (hv : 0 ≤ v.score) : ScoresNonneg (dset d k v) := by
  intro up hup
  rcases mem_dset_cases d k v up hup with h1 | h2
  · exact h up h1
  · rw [h2]
    exact hv

theorem scoresNonneg_of_dget (d : Dict PlayerStats) (h : ScoresNonneg d)
    (uid : UserId) (p : PlayerStats) (hp : dget d uid = some p) : 0 ≤ p.score :=
  h (uid, p) (mem_of_dget_eq_some d uid p hp)

theorem lookup0_nonneg (d : Dict Int) (uid : UserId)
    (h : ∀ ua ∈ d, 0 ≤ Prod.snd ua) : 0 ≤ lookup0 d uid := by
  unfold lookup0
  cases hg : dget d uid with
  | none => simp
  | some a =>
    simp
    exact h (uid, a) (mem_of_dget_eq_some d uid a hg)

/-! ### Winners loop -/

theorem creditWinner_dget_ne (multiplier : Int) (now : Nat)
    (acc : Dict PlayerStats × Dict Int) (ub : UserId × Int) (uid : UserId)
    (h : uid ≠ ub.1) :
    dget (creditWinner multiplier now acc ub).1 uid = dget acc.1 uid ∧
    dget (creditWinner multiplier now acc ub).2 uid = dget acc.2 uid := by
  unfold creditWinner
  cases dget acc.1 ub.1 with
  | none => exact ⟨rfl, rfl⟩
  | some p => exact ⟨dget_dset_ne _ _ _ _ h, dget_dset_ne _ _ _ _ h⟩

theorem foldl_creditWinner_not_mem (multiplier : Int) (now : Nat)
    (wb : Dict Int) (acc : Dict PlayerStats × Dict Int) (uid : UserId)
    (h : uid ∉ dkeys wb) :
    dget (wb.foldl (creditWinner multiplier now) acc).1 uid = dget acc.1 uid ∧
    dget (wb.foldl (creditWinner multiplier now) acc).2 uid = dget acc.2 uid := by
  induction wb generalizing acc with
  | nil => exact ⟨rfl, rfl⟩
  | cons hd tl ih =>
    simp [dkeys] at h
    have hne : uid ≠ hd.1 := h.1
    have step := creditWinner_dget_ne multiplier now acc hd uid hne
    have htl : uid ∉ dkeys tl := by simp [dkeys]; exact h.2
    rw [List.foldl_cons]
    rcases ih (creditWinner multiplier now acc hd) htl with ⟨h1, h2⟩
    exact ⟨h1.trans step.1, h2.trans step.2⟩

theorem foldl_creditWinner_mem (multiplier : Int) (now : Nat)
    (wb : Dict Int) (acc : Dict PlayerStats × Dict Int) (uid : UserId) (amt : Int)
    (hnd : NoDupKeys wb) (hmem : (uid, amt) ∈ wb) (p : PlayerStats)
    (hp : dget acc.1 uid = some p) :
    dget (wb.foldl (creditWinner multiplier now) acc).1 uid =
      some { p with score := p.score + amt * multiplier, wins := p.wins + 1,
                    last_active := now } ∧
    dget (wb.foldl (creditWinner multiplier now) acc).2 uid =
      some (amt * multiplier) := by
  induction wb generalizing acc with
  | nil => simp at hmem
  | cons hd tl ih =>
    unfold NoDupKeys at hnd
    simp [dkeys] at hnd
    rcases List.mem_cons.mp hmem with hhd | htl
    · have huid : hd = (uid, amt) := hhd.symm
      subst huid
      rw [List.foldl_cons]
      have hstep : creditWinner multiplier now acc (uid, amt) =
          (dset acc.1 uid
             { p with
               score := p.score + amt * multiplier
               wins := p.wins + 1
               last_active := now },
           dset acc.2 uid (amt * multiplier)) := by
        unfold creditWinner
        rw [hp]
      rw [hstep]
      have hnotin : uid ∉ dkeys tl := by
        simp [dkeys]
        intro a ha
        exact hnd.1 a ha
      have := foldl_creditWinner_not_mem multiplier now tl
        (dset acc.1 uid
           { p with
             score := p.score + amt * multiplier
             wins := p.wins + 1
             last_active := now },
         dset acc.2 uid (amt * multiplier)) uid hnotin
      rcases this with ⟨h1, h2⟩
      constructor
      · rw [h1]
        exact dget_dset_self _ _ _
      · rw [h2]
        exact dget_dset_self _ _ _
    · have huid_tl : uid ∈ dkeys tl := by
        simp [dkeys]
        exact ⟨amt, htl⟩
      have hne : uid ≠ hd.1 := by
        intro he
        subst he
        simp [dkeys] at huid_tl
        rcases huid_tl with ⟨a, ha⟩
        exact hnd.1 a ha
      rw [List.foldl_cons]
      have hstep := creditWinner_dget_ne multiplier now acc hd uid hne
      have hp' : dget (creditWinner multiplier now acc hd).1 uid = some p :=
        hstep.1.trans hp
      exact ih (creditWinner multiplier now acc hd) hnd.2 htl hp'

theorem foldl_creditWinner_nonneg (multiplier : Int) (now : Nat)
    (wb : Dict Int) (acc : Dict PlayerStats × Dict Int)
    (hm : 0 ≤ multiplier) (hwb : ∀ ua ∈ wb, 0 ≤ Prod.snd ua)
    (h : ScoresNonneg acc.1) :
    ScoresNonneg (wb.foldl (creditWinner multiplier now) acc).1 := by
  induction wb generalizing acc with
  | nil => exact h
  | cons hd tl ih =>
    rw [List.foldl_cons]
    refine ih (creditWinner multiplier now acc hd) (fun ua ha => hwb ua (by simp [ha])) ?_
    unfold creditWinner
    cases hg : dget acc.1 hd.1 with
    | none => exact h
    | some p =>
      refine scoresNonneg_dset acc.1 hd.1 _ h ?_
      have h1 : 0 ≤ p.score := scoresNonneg_of_dget acc.1 h hd.1 p hg
      have h2 : 0 ≤ hd.2 := hwb hd (by simp)
      have : 0 ≤ hd.2 * multiplier := mul_nonneg h2 hm
      simp
      omega

/-! ### Losers loop -/

theorem recordLoser_dget_ne (g : DiceGame) (wb : Dict Int)
    (stats : Dict PlayerStats) (u uid : UserId) (h : uid ≠ u) :
    dget (recordLoser g wb stats u) uid = dget stats uid := by
  unfold recordLoser
  by_cases h1 : (dget wb u).isSome
  · rw [if_pos h1]
  · rw [if_neg h1]
    by_cases h2 : totalBet g u > 0
    · rw [if_pos h2]
      cases dget stats u with
      | none => rfl
      | some p => exact dget_dset_ne _ _ _ _ h
    · rw [if_neg h2]

theorem foldl_recordLoser_not_mem (g : DiceGame) (wb : Dict Int)
    (parts : List UserId) (stats : Dict PlayerStats) (uid : UserId)
    (h : uid ∉ parts) :
    dget (parts.foldl (recordLoser g wb) stats) uid = dget stats uid := by
  induction parts generalizing stats with
  | nil => rfl
  | cons hd tl ih =>
    simp at h
    rw [List.foldl_cons]
    rw [ih (recordLoser g wb stats hd) h.2]
    exact recordLoser_dget_ne g wb stats hd uid h.1

theorem foldl_recordLoser_mem (g : DiceGame) (wb : Dict Int)
    (parts : List UserId) (stats : Dict PlayerStats) (uid : UserId)
    (hnd : parts.Nodup) (hmem : uid ∈ parts) :
    dget (parts.foldl (recordLoser g wb) stats) uid =
      if (dget wb uid).isSome then dget stats uid
      else if totalBet g uid > 0 then
        (dget stats uid).map (fun p => { p with losses := p.losses + 1 })
      else dget stats uid := by
  induction parts generalizing stats with
  | nil => simp at hmem
  | cons hd tl ih =>
    simp at hnd
    rcases List.mem_cons.mp hmem with hhd | htl
    · subst hhd
      rw [List.foldl_cons, foldl_recordLoser_not_mem g wb tl _ uid hnd.1]
      unfold recordLoser
      by_cases h1 : (dget wb uid).isSome
      · rw [if_pos h1, if_pos h1]
      · rw [if_neg h1, if_neg h1]
        by_cases h2 : totalBet g uid > 0
        · rw [if_pos h2, if_pos h2]
          cases hg : dget stats uid with
          | none => simp [hg]
          | some p => simp [hg, dget_dset_self]
        · rw [if_neg h2, if_neg h2]
    · have hne : uid ≠ hd := by
        intro he
        subst he
        exact hnd.1 htl
      rw [List.foldl_cons, ih (recordLoser g wb stats hd) hnd.2 htl,
        recordLoser_dget_ne g wb stats hd uid hne]

theorem foldl_recordLoser_nonneg (g : DiceGame) (wb : Dict Int)
    (parts : List UserId) (stats : Dict PlayerStats)
    (h : ScoresNonneg stats) :
    ScoresNonneg (parts.foldl (recordLoser g wb) stats) := by
  induction parts generalizing stats with
  | nil => exact h
  | cons hd tl ih =>
    rw [List.foldl_cons]
    refine ih (recordLoser g wb stats hd) ?_
    unfold recordLoser
    by_cases h1 : (dget wb hd).isSome
    · rw [if_pos h1]; exact h
    · rw [if_neg h1]
      by_cases h2 : totalBet g hd > 0
      · rw [if_pos h2]
        cases hg : dget stats hd with
        | none => exact h
        | some p =>
          refine scoresNonneg_dset stats hd _ h ?_
          exact scoresNonneg_of_dget stats h hd p hg
      · rw [if_neg h2]; exact h

/-! ### Refund loop and stake aggregation -/

theorem refundStep_dget_ne (now : Nat) (stats : Dict PlayerStats)
    (ua : UserId × Int) (uid : UserId) (h : uid ≠ ua.1) :
    dget (refundStep now stats ua) uid = dget stats uid := by
  unfold refundStep
  cases dget stats ua.1 with
  | none => rfl
  | some p => exact dget_dset_ne _ _ _ _ h

theorem foldl_refundStep_not_mem (now : Nat) (tb : Dict Int)
    (stats : Dict PlayerStats) (uid : UserId) (h : uid ∉ dkeys tb) :
    dget (tb.foldl (refundStep now) stats) uid = dget stats uid := by
  induction tb generalizing stats with
  | nil => rfl
  | cons hd tl ih =>
    simp [dkeys] at h
    rw [List.foldl_cons]
    have htl : uid ∉ dkeys tl := by simp [dkeys]; exact h.2
    rw [ih (refundStep now stats hd) htl]
    exact refundStep_dget_ne now stats hd uid h.1

theorem foldl_refundStep_mem (now : Nat) (tb : Dict Int)
    (stats : Dict PlayerStats) (uid : UserId) (amt : Int)
    (hnd : NoDupKeys tb) (hmem : (uid, amt) ∈ tb) :
    dget (tb.foldl (refundStep now) stats) uid =
      (dget stats uid).map
        (fun p => { p with score := p.score + amt, last_active := now }) := by
  induction tb generalizing stats with
  | nil => simp at hmem
  | cons hd tl ih =>
    unfold NoDupKeys at hnd
    simp [dkeys] at hnd
    rcases List.mem_cons.mp hmem with hhd | htl
    · have huid : hd = (uid, amt) := hhd.symm
      subst huid
      rw [List.foldl_cons]
      have hnotin : uid ∉ dkeys tl := by
        simp [dkeys]
        intro a ha
        exact hnd.1 a ha
      rw [foldl_refundStep_not_mem now tl _ uid hnotin]
      unfold refundStep
      cases hg : dget stats uid with
      | none => simp [hg]
      | some p => simp [hg, dget_dset_self]
    · have hne : uid ≠ hd.1 := by
        intro he
        have : uid ∈ dkeys tl := by simp [dkeys]; exact ⟨amt, htl⟩
        simp [dkeys] at this
        rcases this with ⟨a, ha⟩
        exact hnd.1 a (he ▸ ha)
      rw [List.foldl_cons]
      rw [ih (refundStep now stats hd) hnd.2 htl]
      rw [refundStep_dget_ne now stats hd uid hne]

theorem foldl_refundStep_nonneg (now : Nat) (tb : Dict Int)
    (stats : Dict PlayerStats) (htb : ∀ ua ∈ tb, 0 ≤ Prod.snd ua)
    (h : ScoresNonneg stats) :
    ScoresNonneg (tb.foldl (refundStep now) stats) := by
  induction tb generalizing stats with
  | nil => exact h
  | cons hd tl ih =>
    rw [List.foldl_cons]
    refine ih (refundStep now stats hd) (fun ua ha => htb ua (by simp [ha])) ?_
    unfold refundStep
    cases hg : dget stats hd.1 with
    | none => exact h
    | some p =>
      refine scoresNonneg_dset stats hd.1 _ h ?_
      have h1 : 0 ≤ p.score := scoresNonneg_of_dget stats h hd.1 p hg
      have h2 : 0 ≤ hd.2 := htb hd (by simp)
      simp
      omega

theorem lookup0_dset_self (d : Dict Int) (k : UserId) (v : Int) :
    lookup0 (dset d k v) k = v := by
  unfold lookup0
  rw [dget_dset_self]
  rfl

theorem lookup0_dset_ne (d : Dict Int) (k k' : UserId) (v : Int) (h : k' ≠ k) :
    lookup0 (dset d k v) k' = lookup0 d k' := by
  unfold lookup0
  rw [dget_dset_ne d k k' v h]

theorem lookup0_mergeAdd (acc b : Dict Int) (uid : UserId) (hnd : NoDupKeys b) :
    lookup0 (mergeAdd acc b) uid = lookup0 acc uid + lookup0 b uid := by
  induction b generalizing acc with
  | nil => simp [mergeAdd, lookup0, dget]
  | cons hd tl ih =>
    obtain ⟨u, a⟩ := hd
    unfold NoDupKeys at hnd
    simp [dkeys] at hnd
    unfold mergeAdd at ih ⊢
    rw [List.foldl_cons]
    by_cases he : uid = u
    · subst he
      rw [ih (dset acc uid (lookup0 acc uid + a)) hnd.2]
      have h1 : lookup0 tl uid = 0 := by
        unfold lookup0
        have : dget tl uid = none := by
          rw [dget_none_iff_not_mem_dkeys]
          simp [dkeys]
          intro a' ha'
          exact hnd.1 a' ha'
        rw [this]
        rfl
      rw [h1, lookup0_dset_self]
      have h2 : lookup0 ((uid, a) :: tl) uid = a := by
        unfold lookup0 dget
        simp
      rw [h2]
      ring
    · rw [ih (dset acc u (lookup0 acc u + a)) hnd.2]
      rw [lookup0_dset_ne acc u uid _ he]
      have h2 : lookup0 ((u, a) :: tl) uid = lookup0 tl uid := by
        have hni : ¬ u = uid := fun hc => he hc.symm
        unfold lookup0
        rw [show dget ((u, a) :: tl) uid = dget tl uid from by rw [dget, if_neg hni]]
      rw [h2]

theorem mem_dkeys_mergeAdd (acc b : Dict Int) (uid : UserId) :
    uid ∈ dkeys (mergeAdd acc b) ↔ uid ∈ dkeys acc ∨ uid ∈ dkeys b := by
  induction b generalizing acc with
  | nil => simp [mergeAdd, dkeys]
  | cons hd tl ih =>
    obtain ⟨u, a⟩ := hd
    unfold mergeAdd at ih ⊢
    rw [List.foldl_cons]
    rw [ih (dset acc u (lookup0 acc u + a))]
    rw [mem_dkeys_dset]
    simp [dkeys]
    tauto

theorem noDupKeys_mergeAdd (acc b : Dict Int) (h : NoDupKeys acc) :
    NoDupKeys (mergeAdd acc b) := by
  induction b generalizing acc with
  | nil => exact h
  | cons hd tl ih =>
    unfold mergeAdd at ih ⊢
    rw [List.foldl_cons]
    exact ih _ (noDupKeys_dset _ _ _ h)

theorem mergeAdd_vals_nonneg (acc b : Dict Int)
    (hacc : ∀ ua ∈ acc, 0 ≤ Prod.snd ua) (hb : ∀ ua ∈ b, 0 ≤ Prod.snd ua) :
    ∀ ua ∈ mergeAdd acc b, 0 ≤ Prod.snd ua := by
  induction b generalizing acc with
  | nil => exact hacc
  | cons hd tl ih =>
    unfold mergeAdd at ih ⊢
    rw [List.foldl_cons]
    refine ih (dset acc hd.1 (lookup0 acc hd.1 + hd.2))
      ?_ (fun ua ha => hb ua (by simp [ha]))
    intro ua hua
    rcases mem_dset_cases _ _ _ ua hua with h1 | h2
    · exact hacc ua h1
    · rw [h2]
      have h3 : 0 ≤ lookup0 acc hd.1 := lookup0_nonneg acc hd.1 hacc
      have h4 : 0 ≤ hd.2 := hb hd (by simp)
      simp
      omega

/-! ### Bet book accessor lemmas -/

theorem get_set_self (b : BetBook) (bt : BetType) (d : Dict Int) :
    (b.set bt d).get bt = d := by
  cases bt <;> rfl

theorem get_set_ne (b : BetBook) (bt bt' : BetType) (d : Dict Int)
    (h : bt' ≠ bt) : (b.set bt d).get bt' = b.get bt' := by
  cases bt <;> cases bt' <;> first | rfl | exact absurd rfl h

theorem totalBet_after_bet_self (g : DiceGame) (bt : BetType) (uid : UserId)
    (amount : Int) (ps : List UserId) :
    totalBet
      { g with
        bets := g.bets.set bt (dset (g.bets.get bt) uid
          (lookup0 (g.bets.get bt) uid + amount))
        participants := ps } uid = totalBet g uid + amount := by
  cases bt <;>
    simp [totalBet, BetBook.set, BetBook.get, lookup0_dset_self] <;> ring

theorem totalBet_after_bet_ne (g : DiceGame) (bt : BetType) (uid uid' : UserId)
    (amount : Int) (ps : List UserId) (h : uid' ≠ uid) :
    totalBet
      { g with
        bets := g.bets.set bt (dset (g.bets.get bt) uid
          (lookup0 (g.bets.get bt) uid + amount))
        participants := ps } uid' = totalBet g uid' := by
  cases bt <;>
    simp [totalBet, BetBook.set, BetBook.get, lookup0_dset_ne _ _ _ _ h]

/-! ### place_bet characterization -/

theorem place_bet_eq_nonpos (g : DiceGame) (cd : ChatData) (uid : UserId)
    (username : String) (bt : BetType) (amount : Int) (now : Nat)
    (h : amount ≤ 0) :
    place_bet g cd uid username bt amount now =
      ⟨some .notPositive, g,
        { cd with player_stats := dset cd.player_stats uid (ensuredPlayer cd uid username now) }⟩ := by
  unfold place_bet
  rw [if_pos h]

theorem place_bet_eq_below (g : DiceGame) (cd : ChatData) (uid : UserId)
    (username : String) (bt : BetType) (amount : Int) (now : Nat)
    (h0 : ¬ amount ≤ 0) (h : amount < MIN_BET_AMOUNT) :
    place_bet g cd uid username bt amount now =
      ⟨some .belowMinimum, g,
        { cd with player_stats := dset cd.player_stats uid (ensuredPlayer cd uid username now) }⟩ := by
  unfold place_bet
  rw [if_neg h0, if_pos h]

theorem place_bet_eq_insufficient (g : DiceGame) (cd : ChatData) (uid : UserId)
    (username : String) (bt : BetType) (amount : Int) (now : Nat)
    (h0 : ¬ amount ≤ 0) (h1 : ¬ amount < MIN_BET_AMOUNT)
    (h : (ensuredPlayer cd uid username now).score < amount) :
    place_bet g cd uid username bt amount now =
      ⟨some .insufficientFunds, g,
        { cd with player_stats := dset cd.player_stats uid (ensuredPlayer cd uid username now) }⟩ := by
  unfold place_bet
  rw [if_neg h0, if_neg h1, if_pos h]

theorem place_bet_eq_success (g : DiceGame) (cd : ChatData) (uid : UserId)
    (username : String) (bt : BetType) (amount : Int) (now : Nat)
    (h0 : ¬ amount ≤ 0) (h1 : ¬ amount < MIN_BET_AMOUNT)
    (h : ¬ (ensuredPlayer cd uid username now).score < amount) :
    place_bet g cd uid username bt amount now =
      ⟨none,
        { g with
          bets := g.bets.set bt (dset (g.bets.get bt) uid
            (lookup0 (g.bets.get bt) uid + amount))
          participants := sadd g.participants uid },
        { cd with player_stats := dset (dset cd.player_stats uid (ensuredPlayer cd uid username now)) uid { ensuredPlayer cd uid username now with score := (ensuredPlayer cd uid username now).score - amount } }⟩ := by
  unfold place_bet
  rw [if_neg h0, if_neg h1, if_neg h]

theorem place_bet_err_insufficient_new (g : DiceGame) (cd : ChatData)
    (uid : UserId) (username : String) (bt : BetType) (amount : Int) (now : Nat)
    (h0 : MIN_BET_AMOUNT ≤ amount) (hp : dget cd.player_stats uid = none) :
    (place_bet g cd uid username bt amount now).err = some .insufficientFunds := by
  have h1 : ¬ amount ≤ 0 := by
    unfold MIN_BET_AMOUNT at h0
    omega
  have h2 : ¬ amount < MIN_BET_AMOUNT := not_lt.mpr h0
  have h3 : (ensuredPlayer cd uid username now).score < amount := by
    unfold ensuredPlayer
    rw [hp]
    simp [INITIAL_PLAYER_SCORE]
    unfold MIN_BET_AMOUNT at h0
    omega
  rw [place_bet_eq_insufficient g cd uid username bt amount now h1 h2 h3]

theorem place_bet_fail_shape (g : DiceGame) (cd : ChatData) (uid : UserId)
    (username : String) (bt : BetType) (amount : Int) (now : Nat) :
    (place_bet g cd uid username bt amount now).err = none ∨
    ((place_bet g cd uid username bt amount now).game = g ∧
     (place_bet g cd uid username bt amount now).chat =
       { cd with player_stats := dset cd.player_stats uid (ensuredPlayer cd uid username now) }) := by
  by_cases h0 : amount ≤ 0
  · rw [place_bet_eq_nonpos g cd uid username bt amount now h0]
    exact Or.inr ⟨rfl, rfl⟩
  · by_cases h1 : amount < MIN_BET_AMOUNT
    · rw [place_bet_eq_below g cd uid username bt amount now h0 h1]
      exact Or.inr ⟨rfl, rfl⟩
    · by_cases h2 : (ensuredPlayer cd uid username now).score < amount
      · rw [place_bet_eq_insufficient g cd uid username bt amount now h0 h1 h2]
        exact Or.inr ⟨rfl, rfl⟩
      · rw [place_bet_eq_success g cd uid username bt amount now h0 h1 h2]
        exact Or.inl rfl

theorem place_bet_fail_game (g : DiceGame) (cd : ChatData) (uid : UserId)
    (username : String) (bt : BetType) (amount : Int) (now : Nat)
    (h : (place_bet g cd uid username bt amount now).err.isSome) :
    (place_bet g cd uid username bt amount now).game = g := by
  rcases place_bet_fail_shape g cd uid username bt amount now with h1 | h2
  · rw [h1] at h
    simp at h
  · exact h2.1

theorem place_bet_fail_stats (g : DiceGame) (cd : ChatData) (uid : UserId)
    (username : String) (bt : BetType) (amount : Int) (now : Nat)
    (h : (place_bet g cd uid username bt amount now).err.isSome) :
    (place_bet g cd uid username bt amount now).chat.player_stats =
      dset cd.player_stats uid (ensuredPlayer cd uid username now) := by
  rcases place_bet_fail_shape g cd uid username bt amount now with h1 | h2
  · rw [h1] at h
    simp at h
  · rw [h2.2]

theorem place_bet_success_char (g : DiceGame) (cd : ChatData) (uid : UserId)
    (username : String) (bt : BetType) (amount : Int) (now : Nat)
    (h : (place_bet g cd uid username bt amount now).err = none) :
    0 < amount ∧ MIN_BET_AMOUNT ≤ amount ∧
    ∃ p, dget cd.player_stats uid = some p ∧ amount ≤ p.score ∧
      (place_bet g cd uid username bt amount now).chat.player_stats =
        dset (dset cd.player_stats uid { p with last_active := now }) uid
          { p with score := p.score - amount, last_active := now } ∧
      (place_bet g cd uid username bt amount now).game =
        { g with
          bets := g.bets.set bt (dset (g.bets.get bt) uid
            (lookup0 (g.bets.get bt) uid + amount))
          participants := sadd g.participants uid } := by
  by_cases h0 : amount ≤ 0
  · rw [place_bet_eq_nonpos g cd uid username bt amount now h0] at h
    simp at h
  by_cases h1 : amount < MIN_BET_AMOUNT
  · rw [place_bet_eq_below g cd uid username bt amount now h0 h1] at h
    simp at h
  by_cases h2 : (ensuredPlayer cd uid username now).score < amount
  · rw [place_bet_eq_insufficient g cd uid username bt amount now h0 h1 h2] at h
    simp at h
  refine ⟨by omega, by omega, ?_⟩
  cases hp : dget cd.player_stats uid with
  | none =>
    exfalso
    unfold ensuredPlayer at h2
    rw [hp] at h2
    simp [INITIAL_PLAYER_SCORE] at h2
    unfold MIN_BET_AMOUNT at h1
    omega
  | some p =>
    have hep : ensuredPlayer cd uid username now = { p with last_active := now } := by
      simp [ensuredPlayer, hp]
    have hle : amount ≤ p.score := by
      rw [hep] at h2
      simp at h2
      omega
    refine ⟨p, rfl, hle, ?_, ?_⟩
    · rw [place_bet_eq_success g cd uid username bt amount now h0 h1 h2]
      simp [hep]
    · rw [place_bet_eq_success g cd uid username bt amount now h0 h1 h2]

theorem place_bet_chat_misc (g : DiceGame) (cd : ChatData) (uid : UserId)
    (username : String) (bt : BetType) (amount : Int) (now : Nat) :
    (place_bet g cd uid username bt amount now).chat.match_counter =
        cd.match_counter ∧
    (place_bet g cd uid username bt amount now).chat.match_history =
        cd.match_history ∧
    (place_bet g cd uid username bt amount now).chat.consecutive_idle_matches =
        cd.consecutive_idle_matches := by
  by_cases h0 : amount ≤ 0
  · rw [place_bet_eq_nonpos g cd uid username bt amount now h0]
    exact ⟨rfl, rfl, rfl⟩
  by_cases h1 : amount < MIN_BET_AMOUNT
  · rw [place_bet_eq_below g cd uid username bt amount now h0 h1]
    exact ⟨rfl, rfl, rfl⟩
  by_cases h2 : (ensuredPlayer cd uid username now).score < amount
  · rw [place_bet_eq_insufficient g cd uid username bt amount now h0 h1 h2]
    exact ⟨rfl, rfl, rfl⟩
  rw [place_bet_eq_success g cd uid username bt amount now h0 h1 h2]
  exact ⟨rfl, rfl, rfl⟩

theorem place_bet_game_state (g : DiceGame) (cd : ChatData) (uid : UserId)
    (username : String) (bt : BetType) (amount : Int) (now : Nat) :
    (place_bet g cd uid username bt amount now).game.state = g.state := by
  by_cases h0 : amount ≤ 0
  · rw [place_bet_eq_nonpos g cd uid username bt amount now h0]
  · by_cases h1 : amount < MIN_BET_AMOUNT
    · rw [place_bet_eq_below g cd uid username bt amount now h0 h1]
    · by_cases h2 : (ensuredPlayer cd uid username now).score < amount
      · rw [place_bet_eq_insufficient g cd uid username bt amount now h0 h1 h2]
      · rw [place_bet_eq_success g cd uid username bt amount now h0 h1 h2]

/-- A bet placement changes neither the score, wins, losses bookkeeping nor the
stakes of any user other than the bettor. -/
theorem place_bet_other_user (g : DiceGame) (cd : ChatData) (cu : UserId)
    (username : String) (bt : BetType) (amount : Int) (now : Nat) (uid : UserId)
    (h : uid ≠ cu) :
    dget (place_bet g cd cu username bt amount now).chat.player_stats uid =
      dget cd.player_stats uid ∧
    totalBet (place_bet g cd cu username bt amount now).game uid =
      totalBet g uid := by
  cases he : (place_bet g cd cu username bt amount now).err with
  | some e =>
    have hs : (place_bet g cd cu username bt amount now).err.isSome := by
      rw [he]; rfl
    rw [place_bet_fail_stats g cd cu username bt amount now hs,
      place_bet_fail_game g cd cu username bt amount now hs]
    exact ⟨dget_dset_ne _ _ _ _ h, rfl⟩
  | none =>
    rcases place_bet_success_char g cd cu username bt amount now he with
      ⟨_, _, p, hp, _, hstats, hgame⟩
    rw [hstats, hgame]
    constructor
    · rw [dget_dset_ne _ _ _ _ h, dget_dset_ne _ _ _ _ h]
    · exact totalBet_after_bet_ne g bt cu uid amount _ h

/-- The bettor's (score + outstanding total stake), wins and losses are
preserved by a bet placement, successful or not. -/
theorem place_bet_account_step (g : DiceGame) (cd : ChatData) (cu : UserId)
    (username : String) (bt : BetType) (amount : Int) (now : Nat)
    (uid : UserId) (p : PlayerStats) (hp : dget cd.player_stats uid = some p) :
    ∃ p', dget (place_bet g cd cu username bt amount now).chat.player_stats uid
        = some p' ∧
      p'.score + totalBet (place_bet g cd cu username bt amount now).game uid
        = p.score + totalBet g uid ∧
      p'.wins = p.wins ∧ p'.losses = p.losses := by
  by_cases he : uid = cu
  · subst he
    cases herr : (place_bet g cd uid username bt amount now).err with
    | some e =>
      have hs : (place_bet g cd uid username bt amount now).err.isSome := by
        rw [herr]; rfl
      rw [place_bet_fail_stats g cd uid username bt amount now hs,
        place_bet_fail_game g cd uid username bt amount now hs]
      refine ⟨{ p with last_active := now }, ?_, by simp, rfl, rfl⟩
      rw [dget_dset_self]
      simp [ensuredPlayer, hp]
    | none =>
      rcases place_bet_success_char g cd uid username bt amount now herr with
        ⟨_, _, q, hq, hle, hstats, hgame⟩
      have hqp : q = p := by
        rw [hq] at hp
        exact Option.some.inj hp
      subst hqp
      rw [hstats, hgame]
      refine ⟨{ q with score := q.score - amount, last_active := now },
        dget_dset_self _ _ _, ?_, rfl, rfl⟩
      rw [totalBet_after_bet_self g bt uid amount _]
      simp
  · rcases place_bet_other_user g cd cu username bt amount now uid he with
      ⟨h1, h2⟩
    refine ⟨p, ?_, ?_, rfl, rfl⟩
    · rw [h1, hp]
    · rw [h2]

theorem place_bet_scoresNonneg (g : DiceGame) (cd : ChatData) (uid : UserId)
    (username : String) (bt : BetType) (amount : Int) (now : Nat)
    (h : ScoresNonneg cd.player_stats) :
    ScoresNonneg (place_bet g cd uid username bt amount now).chat.player_stats := by
  cases he : (place_bet g cd uid username bt amount now).err with
  | some e =>
    have hs : (place_bet g cd uid username bt amount now).err.isSome := by
      rw [he]; rfl
    rw [place_bet_fail_stats g cd uid username bt amount now hs]
    refine scoresNonneg_dset _ _ _ h ?_
    unfold ensuredPlayer
    cases hg : dget cd.player_stats uid with
    | none => simp [INITIAL_PLAYER_SCORE]
    | some p =>
      simp
      exact scoresNonneg_of_dget _ h uid p hg
  | none =>
    rcases place_bet_success_char g cd uid username bt amount now he with
      ⟨h0, _, p, hp, hle, hstats, _⟩
    rw [hstats]
    refine scoresNonneg_dset _ _ _ (scoresNonneg_dset _ _ _ h ?_) ?_
    · simp
      exact scoresNonneg_of_dget _ h uid p hp
    · simp
      omega

theorem place_bet_betsNonneg (g : DiceGame) (cd : ChatData) (uid : UserId)
    (username : String) (bt : BetType) (amount : Int) (now : Nat)
    (h : BetsNonneg g) :
    BetsNonneg (place_bet g cd uid username bt amount now).game := by
  cases he : (place_bet g cd uid username bt amount now).err with
  | some e =>
    have hs : (place_bet g cd uid username bt amount now).err.isSome := by
      rw [he]; rfl
    rw [place_bet_fail_game g cd uid username bt amount now hs]
    exact h
  | none =>
    rcases place_bet_success_char g cd uid username bt amount now he with
      ⟨h0, _, p, hp, hle, _, hgame⟩
    rw [hgame]
    intro bt' ua hua
    by_cases hbt : bt' = bt
    · subst hbt
      simp [get_set_self] at hua
      rcases mem_dset_cases _ _ _ ua hua with h1 | h2
      · exact h bt' ua h1
      · rw [h2]
        have h3 : 0 ≤ lookup0 (g.bets.get bt') uid :=
          lookup0_nonneg _ _ (fun ua' ha' => h bt' ua' ha')
        simp
        omega
    · rw [show ({ g with
          bets := g.bets.set bt (dset (g.bets.get bt) uid
            (lookup0 (g.bets.get bt) uid + amount))
          participants := sadd g.participants uid } : DiceGame).bets.get bt' =
          g.bets.get bt' from get_set_ne _ _ _ _ hbt] at hua
      exact h bt' ua hua

theorem place_bet_noDupKeys_stats (g : DiceGame) (cd : ChatData) (uid : UserId)
    (username : String) (bt : BetType) (amount : Int) (now : Nat)
    (h : NoDupKeys cd.player_stats) :
    NoDupKeys (place_bet g cd uid username bt amount now).chat.player_stats := by
  cases he : (place_bet g cd uid username bt amount now).err with
  | some e =>
    have hs : (place_bet g cd uid username bt amount now).err.isSome := by
      rw [he]; rfl
    rw [place_bet_fail_stats g cd uid username bt amount now hs]
    exact noDupKeys_dset _ _ _ h
  | none =>
    rcases place_bet_success_char g cd uid username bt amount now he with
      ⟨_, _, p, hp, _, hstats, _⟩
    rw [hstats]
    exact noDupKeys_dset _ _ _ (noDupKeys_dset _ _ _ h)

theorem place_bet_noDupKeys_bets (g : DiceGame) (cd : ChatData) (uid : UserId)
    (username : String) (bt : BetType) (amount : Int) (now : Nat)
    (h : ∀ bt' : BetType, NoDupKeys (g.bets.get bt')) :
    ∀ bt' : BetType,
      NoDupKeys ((place_bet g cd uid username bt amount now).game.bets.get bt') := by
  cases he : (place_bet g cd uid username bt amount now).err with
  | some e =>
    have hs : (place_bet g cd uid username bt amount now).err.isSome := by
      rw [he]; rfl
    rw [place_bet_fail_game g cd uid username bt amount now hs]
    exact h
  | none =>
    rcases place_bet_success_char g cd uid username bt amount now he with
      ⟨_, _, p, hp, _, _, hgame⟩
    rw [hgame]
    intro bt'
    by_cases hbt : bt' = bt
    · subst hbt
      rw [get_set_self]
      exact noDupKeys_dset _ _ _ (h bt')
    · rw [get_set_ne _ _ _ _ hbt]
      exact h bt'

/-! ### payout characterization -/

theorem payout_main_eq (g : DiceGame) (cd : ChatData) (now : Nat)
    (hany : anyBetsPlaced g = true) (hne : cd.player_stats.isEmpty = false) :
    payout g cd now =
      ⟨determine_winner (g.result.getD 0),
       (if determine_winner (g.result.getD 0) = .lucky then 5 else 2 : Int),
       (payoutWinners (if determine_winner (g.result.getD 0) = .lucky then 5 else 2)
          now cd.player_stats (g.bets.get (determine_winner (g.result.getD 0)))).2,
       { cd with
         player_stats := payoutLosers g
           (g.bets.get (determine_winner (g.result.getD 0)))
           (payoutWinners (if determine_winner (g.result.getD 0) = .lucky then 5 else 2)
              now cd.player_stats (g.bets.get (determine_winner (g.result.getD 0)))).1
         match_history := (histAppend cd.match_history
           ⟨g.match_id, g.result, determine_winner (g.result.getD 0),
            g.participants.length, g.bets⟩) }⟩ := by
  unfold payout
  rw [hany]
  simp [hne]

theorem payout_scoresNonneg (g : DiceGame) (cd : ChatData) (now : Nat)
    (h : ScoresNonneg cd.player_stats) (hb : BetsNonneg g) :
    ScoresNonneg (payout g cd now).chat.player_stats := by
  unfold payout
  by_cases hany : anyBetsPlaced g
  · rw [hany]
    simp only [Bool.not_true, Bool.false_eq_true, if_false]
    by_cases hne : cd.player_stats.isEmpty
    · simp [hne]
      exact h
    · simp [hne]
      refine foldl_recordLoser_nonneg g _ g.participants _ ?_
      refine foldl_creditWinner_nonneg _ now _ (cd.player_stats, []) ?_ ?_ h
      · by_cases hl : determine_winner (g.result.getD 0) = .lucky <;> simp [hl]
      · exact fun ua ha => hb (determine_winner (g.result.getD 0)) ua ha
  · have : anyBetsPlaced g = false := by
      cases hv : anyBetsPlaced g
      · rfl
      · exact absurd hv hany
    rw [this]
    simp
    exact h

theorem payout_history_shape (g : DiceGame) (cd : ChatData) (now : Nat) :
    (payout g cd now).chat.match_history = cd.match_history ∨
    ∃ e, (payout g cd now).chat.match_history = histAppend cd.match_history e ∧
      e.match_id = g.match_id := by
  unfold payout
  by_cases hany : anyBetsPlaced g
  · rw [hany]
    simp only [Bool.not_true, Bool.false_eq_true, if_false]
    by_cases hne : cd.player_stats.isEmpty
    · simp [hne]
    · simp [hne]
      exact Or.inr ⟨_, rfl, rfl⟩
  · have : anyBetsPlaced g = false := by
      cases hv : anyBetsPlaced g
      · rfl
      · exact absurd hv hany
    rw [this]
    simp
    exact Or.inr ⟨_, rfl, rfl⟩

/-! ### Bounded history -/

theorem histAppend_length_le (h : List MatchHistoryEntry) (e : MatchHistoryEntry) :
    (histAppend h e).length ≤ 20 := by
  unfold histAppend
  simp
  omega

theorem histAppend_not_full (h : List MatchHistoryEntry) (e : MatchHistoryEntry)
    (hlt : h.length < 20) : histAppend h e = h ++ [e] := by
  unfold histAppend
  show List.drop ((h ++ [e]).length - 20) (h ++ [e]) = h ++ [e]
  have hz : (h ++ [e]).length - 20 = 0 := by
    simp
    omega
  rw [hz, List.drop_zero]

theorem histAppend_full (h : List MatchHistoryEntry) (e : MatchHistoryEntry)
    (hfull : h.length = 20) : histAppend h e = h.drop 1 ++ [e] := by
  unfold histAppend
  show List.drop ((h ++ [e]).length - 20) (h ++ [e]) = List.drop 1 h ++ [e]
  have hz : (h ++ [e]).length - 20 = 1 := by
    simp [hfull]
  rw [hz, List.drop_append_of_le_length (by omega)]

theorem histAppend_isSuffix (h : List MatchHistoryEntry) (e : MatchHistoryEntry) :
    (histAppend h e).IsSuffix (h ++ [e]) := by
  unfold histAppend
  show (List.drop ((h ++ [e]).length - 20) (h ++ [e])).IsSuffix (h ++ [e])
  exact List.drop_suffix _ _

theorem histAppend_getLast (h : List MatchHistoryEntry) (e : MatchHistoryEntry) :
    (histAppend h e).getLast? = some e := by
  unfold histAppend
  show (List.drop ((h ++ [e]).length - 20) (h ++ [e])).getLast? = some e
  have h20 : (h ++ [e]).length - 20 ≤ h.length := by
    simp only [List.length_append, List.length_singleton]
    omega
  rw [List.drop_append_of_le_length h20, List.getLast?_append]
  rfl

/-! ### stop_game characterization -/

theorem noDupKeys_nil {α : Type} : NoDupKeys ([] : Dict α) := by
  unfold NoDupKeys dkeys
  simp

theorem lookup0_totalBetsByUser (g : DiceGame) (uid : UserId)
    (hnd : ∀ bt : BetType, NoDupKeys (g.bets.get bt)) :
    lookup0 (totalBetsByUser g) uid = totalBet g uid := by
  have hB : NoDupKeys g.bets.big := hnd .big
  have hS : NoDupKeys g.bets.small := hnd .small
  have hL : NoDupKeys g.bets.lucky := hnd .lucky
  unfold totalBetsByUser totalBet
  rw [lookup0_mergeAdd _ _ _ hL, lookup0_mergeAdd _ _ _ hS,
    lookup0_mergeAdd _ _ _ hB]
  have h0 : lookup0 ([] : Dict Int) uid = 0 := rfl
  rw [h0]
  ring

theorem noDupKeys_totalBetsByUser (g : DiceGame) :
    NoDupKeys (totalBetsByUser g) := by
  unfold totalBetsByUser
  exact noDupKeys_mergeAdd _ _
    (noDupKeys_mergeAdd _ _ (noDupKeys_mergeAdd _ _ noDupKeys_nil))

theorem totalBetsByUser_vals_nonneg (g : DiceGame) (hb : BetsNonneg g) :
    ∀ ua ∈ totalBetsByUser g, 0 ≤ Prod.snd ua := by
  unfold totalBetsByUser
  refine mergeAdd_vals_nonneg _ _
    (mergeAdd_vals_nonneg _ _ (mergeAdd_vals_nonneg _ _ (by simp) ?_) ?_) ?_
  · exact fun ua ha => hb .big ua ha
  · exact fun ua ha => hb .small ua ha
  · exact fun ua ha => hb .lucky ua ha

theorem stop_game_effect (s : HState) (cur : DiceGame) (now : Nat)
    (hg : s.game = some cur) (hstate : cur.state ≠ .GAME_OVER)
    (hnd : ∀ bt : BetType, NoDupKeys (cur.bets.get bt)) :
    (∀ uid p, dget s.chat.player_stats uid = some p →
      ∃ p', dget (stop_game now s).chat.player_stats uid = some p' ∧
        p'.score = p.score + totalBet cur uid ∧
        p'.wins = p.wins ∧ p'.losses = p.losses) ∧
    (stop_game now s).chat.match_history = s.chat.match_history ∧
    (stop_game now s).chat.consecutive_idle_matches =
      s.chat.consecutive_idle_matches ∧
    (stop_game now s).game = none ∧
    (stop_game now s).num_matches_total = none ∧
    (stop_game now s).current_match_index = none ∧
    (stop_game now s).close_bets_job = none ∧
    (stop_game now s).roll_and_announce_job = none ∧
    (stop_game now s).next_game_job = false ∧
    (stop_game now s).events = s.events ++ [Event.stoppedRefund cur.match_id] := by
  unfold stop_game
  rw [hg]
  simp only [if_neg hstate]
  refine ⟨?_, trivial, trivial, trivial, trivial, trivial, trivial, trivial,
    trivial, trivial⟩
  intro uid p hp
  cases htb : dget (totalBetsByUser cur) uid with
  | some a =>
    have hmem : (uid, a) ∈ totalBetsByUser cur :=
      mem_of_dget_eq_some _ _ _ htb
    have := foldl_refundStep_mem now (totalBetsByUser cur) s.chat.player_stats
      uid a (noDupKeys_totalBetsByUser cur) hmem
    rw [hp] at this
    refine ⟨{ p with score := p.score + a, last_active := now }, this, ?_, rfl, rfl⟩
    have ha : a = totalBet cur uid := by
      have := lookup0_totalBetsByUser cur uid hnd
      unfold lookup0 at this
      rw [htb] at this
      simpa using this
    simp [ha]
  | none =>
    have hnm : uid ∉ dkeys (totalBetsByUser cur) := by
      rw [← dget_none_iff_not_mem_dkeys]
      exact htb
    have := foldl_refundStep_not_mem now (totalBetsByUser cur)
      s.chat.player_stats uid hnm
    rw [hp] at this
    have htot : totalBet cur uid = 0 := by
      have hl := lookup0_totalBetsByUser cur uid hnd
      unfold lookup0 at hl
      rw [htb] at hl
      simpa using hl.symm
    refine ⟨p, this, ?_, rfl, rfl⟩
    simp [htot]

theorem stop_game_scoresNonneg (s : HState) (now : Nat)
    (h : ScoresNonneg s.chat.player_stats)
    (hb : ∀ cur, s.game = some cur → BetsNonneg cur) :
    ScoresNonneg (stop_game now s).chat.player_stats := by
  unfold stop_game
  cases hg : s.game with
  | none => exact h
  | some cur =>
    by_cases hstate : cur.state = .GAME_OVER
    · simp [hstate]
      exact h
    · simp only [if_neg hstate]
      exact foldl_refundStep_nonneg now _ _
        (totalBetsByUser_vals_nonneg cur (hb cur hg)) h

/-! ### runBets characterization -/

theorem runBets_account (cmds : List BetCmd) (g : DiceGame) (cd : ChatData)
    (uid : UserId) (p : PlayerStats) (hp : dget cd.player_stats uid = some p) :
    ∃ p', dget (runBets g cd cmds).2.player_stats uid = some p' ∧
      p'.score + totalBet (runBets g cd cmds).1 uid = p.score + totalBet g uid ∧
      p'.wins = p.wins ∧ p'.losses = p.losses := by
  induction cmds generalizing g cd p with
  | nil => exact ⟨p, hp, rfl, rfl, rfl⟩
  | cons c rest ih =>
    simp only [runBets]
    rcases place_bet_account_step g cd c.uid c.username c.bt c.amount c.now
      uid p hp with ⟨p1, hp1, hbal, hw, hl⟩
    rcases ih (place_bet g cd c.uid c.username c.bt c.amount c.now).game
      (place_bet g cd c.uid c.username c.bt c.amount c.now).chat p1 hp1 with
      ⟨p2, hp2, hbal2, hw2, hl2⟩
    refine ⟨p2, hp2, ?_, hw2.trans hw, hl2.trans hl⟩
    rw [hbal2, hbal]

theorem runBets_misc (cmds : List BetCmd) (g : DiceGame) (cd : ChatData) :
    (runBets g cd cmds).2.match_counter = cd.match_counter ∧
    (runBets g cd cmds).2.match_history = cd.match_history ∧
    (runBets g cd cmds).2.consecutive_idle_matches =
      cd.consecutive_idle_matches ∧
    (runBets g cd cmds).1.state = g.state := by
  induction cmds generalizing g cd with
  | nil => exact ⟨rfl, rfl, rfl, rfl⟩
  | cons c rest ih =>
    simp only [runBets]
    rcases ih (place_bet g cd c.uid c.username c.bt c.amount c.now).game
      (place_bet g cd c.uid c.username c.bt c.amount c.now).chat with
      ⟨h1, h2, h3, h4⟩
    rcases place_bet_chat_misc g cd c.uid c.username c.bt c.amount c.now with
      ⟨m1, m2, m3⟩
    exact ⟨h1.trans m1, h2.trans m2, h3.trans m3,
      h4.trans (place_bet_game_state g cd c.uid c.username c.bt c.amount c.now)⟩

theorem runBets_noDupKeys_bets (cmds : List BetCmd) (g : DiceGame)
    (cd : ChatData) (h : ∀ bt : BetType, NoDupKeys (g.bets.get bt)) :
    ∀ bt : BetType, NoDupKeys ((runBets g cd cmds).1.bets.get bt) := by
  induction cmds generalizing g cd with
  | nil => exact h
  | cons c rest ih =>
    simp only [runBets]
    exact ih (place_bet g cd c.uid c.username c.bt c.amount c.now).game
      (place_bet g cd c.uid c.username c.bt c.amount c.now).chat
      (place_bet_noDupKeys_bets g cd c.uid c.username c.bt c.amount c.now h)

theorem payout_winner_multiplier (g : DiceGame) (cd : ChatData) (now : Nat) :
    (payout g cd now).winner = determine_winner (g.result.getD 0) ∧
    (payout g cd now).multiplier =
      (if determine_winner (g.result.getD 0) = .lucky then 5 else 2 : Int) := by
  simp only [payout]
  split_ifs <;> exact ⟨rfl, rfl⟩

theorem payout_idle_counter (g : DiceGame) (cd : ChatData) (now : Nat) :
    (payout g cd now).chat.consecutive_idle_matches =
      cd.consecutive_idle_matches ∧
    (payout g cd now).chat.match_counter = cd.match_counter := by
  simp only [payout]
  split_ifs <;> exact ⟨rfl, rfl⟩

/-! ## Claims -/

/-- C2: the winning outcome and multiplier are a pure function of the dice
sum: for every result in 2..12, a result of 7 wins lucky with multiplier 5, a
result above 7 wins big with multiplier 2, and a result below 7 wins small
with multiplier 2 (src/game_logic.py `determine_winner` and `payout`). -/
theorem c2_winning_outcome (g : DiceGame) (cd : ChatData) (now : Nat) (r : Nat)
    (hres : g.result = some r) (hlo : 2 ≤ r) (hhi : r ≤ 12) :
    (payout g cd now).winner = determine_winner r ∧
    (r = 7 →
      (payout g cd now).winner = .lucky ∧ (payout g cd now).multiplier = 5) ∧
    (7 < r →
      (payout g cd now).winner = .big ∧ (payout g cd now).multiplier = 2) ∧
    (r < 7 →
      (payout g cd now).winner = .small ∧ (payout g cd now).multiplier = 2) := by
  rcases payout_winner_multiplier g cd now with ⟨hw, hm⟩
  rw [hres] at hw hm
  simp only [Option.getD_some] at hw hm
  refine ⟨hw, ?_, ?_, ?_⟩
  · intro h7
    subst h7
    have hdw : determine_winner 7 = .lucky := by decide
    simp only [hdw] at hw hm
    simp at hm
    exact ⟨hw, hm⟩
  · intro h7
    have hdw : determine_winner r = .big := by
      unfold determine_winner
      rw [if_neg (by omega), if_pos h7]
    simp only [hdw] at hw hm
    simp at hm
    exact ⟨hw, hm⟩
  · intro h7
    have hdw : determine_winner r = .small := by
      unfold determine_winner
      rw [if_neg (by omega), if_neg (by omega)]
    simp only [hdw] at hw hm
    simp at hm
    exact ⟨hw, hm⟩

/-- Witness for C2 at the concrete results 7, 9 and 4. -/
theorem c2_witness :
    (payout ⟨1, ⟨[], [], []⟩, .GAME_OVER, some 7, []⟩ ⟨1, [], [], 0⟩ 0).winner
        = .lucky ∧
    (payout ⟨1, ⟨[], [], []⟩, .GAME_OVER, some 7, []⟩ ⟨1, [], [], 0⟩ 0).multiplier
        = 5 ∧
    (payout ⟨2, ⟨[], [], []⟩, .GAME_OVER, some 9, []⟩ ⟨1, [], [], 0⟩ 0).winner
        = .big ∧
    (payout ⟨3, ⟨[], [], []⟩, .GAME_OVER, some 4, []⟩ ⟨1, [], [], 0⟩ 0).multiplier
        = 2 := by
  refine ⟨?_, ?_, ?_, ?_⟩
  · exact ((c2_winning_outcome ⟨1, ⟨[], [], []⟩, .GAME_OVER, some 7, []⟩
      ⟨1, [], [], 0⟩ 0 7 rfl (by decide) (by decide)).2.1 rfl).1
  · exact ((c2_winning_outcome ⟨1, ⟨[], [], []⟩, .GAME_OVER, some 7, []⟩
      ⟨1, [], [], 0⟩ 0 7 rfl (by decide) (by decide)).2.1 rfl).2
  · exact ((c2_winning_outcome ⟨2, ⟨[], [], []⟩, .GAME_OVER, some 9, []⟩
      ⟨1, [], [], 0⟩ 0 9 rfl (by decide) (by decide)).2.2.1 (by decide)).1
  · exact ((c2_winning_outcome ⟨3, ⟨[], [], []⟩, .GAME_OVER, some 4, []⟩
      ⟨1, [], [], 0⟩ 0 4 rfl (by decide) (by decide)).2.2.2 (by decide)).2

/-- C10: a player account created on first bet starts at
`INITIAL_PLAYER_SCORE = 0`, strictly below the minimum bet of 100, so every
bet placement by a player with no pre-existing account fails: non-positive
amounts are rejected as invalid, and every positive amount fails as
below-minimum or insufficient-funds — a new player can never place a
successful first bet. -/
theorem c10_new_player_never_succeeds (g : DiceGame) (cd : ChatData)
    (uid : UserId) (username : String) (bt : BetType) (amount : Int) (now : Nat)
    (hnew : dget cd.player_stats uid = none) :
    INITIAL_PLAYER_SCORE = 0 ∧ INITIAL_PLAYER_SCORE < MIN_BET_AMOUNT ∧
    (place_bet g cd uid username bt amount now).err ≠ none ∧
    (0 < amount →
      (place_bet g cd uid username bt amount now).err = some .belowMinimum ∨
      (place_bet g cd uid username bt amount now).err =
        some .insufficientFunds) := by
  refine ⟨rfl, by decide, ?_, ?_⟩
  · by_cases h0 : amount ≤ 0
    · rw [place_bet_eq_nonpos g cd uid username bt amount now h0]
      simp
    · by_cases h1 : amount < MIN_BET_AMOUNT
      · rw [place_bet_eq_below g cd uid username bt amount now h0 h1]
        simp
      · rw [place_bet_err_insufficient_new g cd uid username bt amount now
          (not_lt.mp h1) hnew]
        simp
  · intro hpos
    by_cases h1 : amount < MIN_BET_AMOUNT
    · rw [place_bet_eq_below g cd uid username bt amount now (not_le.mpr hpos) h1]
      exact Or.inl rfl
    · exact Or.inr (place_bet_err_insufficient_new g cd uid username bt amount
        now (not_lt.mp h1) hnew)

/-- Witness for C10: a brand-new player betting 100 (and 50) always fails. -/
theorem c10_witness :
    dget (⟨1, [], [], 0⟩ : ChatData).player_stats 5 = none ∧
    (place_bet ⟨1, ⟨[], [], []⟩, .WAITING_FOR_BETS, none, []⟩ ⟨1, [], [], 0⟩
      5 "eve" .big 100 3).err = some .insufficientFunds ∧
    (place_bet ⟨1, ⟨[], [], []⟩, .WAITING_FOR_BETS, none, []⟩ ⟨1, [], [], 0⟩
      5 "eve" .big 50 3).err = some .belowMinimum := by
  refine ⟨rfl, ?_, ?_⟩
  · have h := (c10_new_player_never_succeeds
      ⟨1, ⟨[], [], []⟩, .WAITING_FOR_BETS, none, []⟩ ⟨1, [], [], 0⟩
      5 "eve" .big 100 3 rfl).2.2.2 (by decide)
    rcases h with h | h
    · exact absurd h (by decide)
    · exact h
  · have h := (c10_new_player_never_succeeds
      ⟨1, ⟨[], [], []⟩, .WAITING_FOR_BETS, none, []⟩ ⟨1, [], [], 0⟩
      5 "eve" .big 50 3 rfl).2.2.2 (by decide)
    rcases h with h | h
    · exact h
    · exact absurd h (by decide)

/-- C9: after every settlement the match history holds at most 20 entries and
always the most recent ones — the settlement either leaves the history alone
(the degraded empty-stats branch) or appends this round's entry, dropping the
oldest entry when the buffer is full.  The bounded buffer itself is modelled
from the spec because `get_chat_data_for_id` is not among the sources. -/
theorem c9_history_bounded (g : DiceGame) (cd : ChatData) (now : Nat)
    (h : cd.match_history.length ≤ 20) :
    (payout g cd now).chat.match_history.length ≤ 20 ∧
    ((payout g cd now).chat.match_history = cd.match_history ∨
      ∃ e, e.match_id = g.match_id ∧
        ((payout g cd now).chat.match_history).IsSuffix
          (cd.match_history ++ [e]) ∧
        ((payout g cd now).chat.match_history).getLast? = some e ∧
        (cd.match_history.length < 20 →
          (payout g cd now).chat.match_history = cd.match_history ++ [e]) ∧
        (cd.match_history.length = 20 →
          (payout g cd now).chat.match_history =
            cd.match_history.drop 1 ++ [e])) := by
  rcases payout_history_shape g cd now with hsame | ⟨e, heq, hid⟩
  · constructor
    · rw [hsame]
      exact h
    · exact Or.inl hsame
  · constructor
    · rw [heq]
      exact histAppend_length_le cd.match_history e
    · refine Or.inr ⟨e, hid, ?_, ?_, ?_, ?_⟩
      · rw [heq]
        exact histAppend_isSuffix cd.match_history e
      · rw [heq]
        exact histAppend_getLast cd.match_history e
      · intro hlt
        rw [heq]
        exact histAppend_not_full cd.match_history e hlt
      · intro hfull
        rw [heq]
        exact histAppend_full cd.match_history e hfull

/-- Witness for C9: settling a one-bet round against an empty history keeps
the bound. -/
theorem c9_witness :
    ((⟨1, [(1, ⟨"p", 900, 0, 0, 0⟩)], [], 0⟩ : ChatData).match_history.length
      ≤ 20) ∧
    (payout ⟨1, ⟨[(1, 100)], [], []⟩, .GAME_OVER, some 9, [1]⟩
      ⟨1, [(1, ⟨"p", 900, 0, 0, 0⟩)], [], 0⟩ 2).chat.match_history.length
      ≤ 20 :=
  ⟨by decide,
   (c9_history_bounded ⟨1, ⟨[(1, 100)], [], []⟩, .GAME_OVER, some 9, [1]⟩
     ⟨1, [(1, ⟨"p", 900, 0, 0, 0⟩)], [], 0⟩ 2 (by decide)).1⟩

/-- C1 counterexample: `/adjustscore` with a negative amount larger than the
balance drives the balance below zero — the admin adjustment at
src/handlers.py line 948 is a raw `score += amount` with no floor check. -/
theorem c1_counterexample :
    ∃ p, dget (adjust_score [(7, ⟨"alice", 0, 0, 0, 0⟩)] 7 "alice" (-500) 1) 7
      = some p ∧ p.score < 0 :=
  ⟨⟨"alice", -500, 0, 0, 1⟩, by decide, by decide⟩

/-- C1 (amended): bet placement, payout and the stop-refund never leave a
stored account with a negative balance (given the bet book holds non-negative
stakes, which bet placement preserves); the administrative score adjustment
is the exception — it adds an arbitrary signed delta with no floor check and
can leave a balance strictly below zero (see the counterexample). -/
theorem c1_amended_no_negative_balance :
    (∀ (g : DiceGame) (cd : ChatData) (uid : UserId) (username : String)
        (bt : BetType) (amount : Int) (now : Nat),
      ScoresNonneg cd.player_stats →
      ScoresNonneg (place_bet g cd uid username bt amount now).chat.player_stats) ∧
    (∀ (g : DiceGame) (cd : ChatData) (uid : UserId) (username : String)
        (bt : BetType) (amount : Int) (now : Nat),
      BetsNonneg g →
      BetsNonneg (place_bet g cd uid username bt amount now).game) ∧
    (∀ (g : DiceGame) (cd : ChatData) (now : Nat),
      ScoresNonneg cd.player_stats → BetsNonneg g →
      ScoresNonneg (payout g cd now).chat.player_stats) ∧
    (∀ (s : HState) (now : Nat),
      ScoresNonneg s.chat.player_stats →
      (∀ cur, s.game = some cur → BetsNonneg cur) →
      ScoresNonneg (stop_game now s).chat.player_stats) :=
  ⟨fun g cd uid username bt amount now h =>
      place_bet_scoresNonneg g cd uid username bt amount now h,
   fun g cd uid username bt amount now h =>
      place_bet_betsNonneg g cd uid username bt amount now h,
   fun g cd now h hb => payout_scoresNonneg g cd now h hb,
   fun s now h hb => stop_game_scoresNonneg s now h hb⟩

/-- Witness for C1 (amended): a concrete bet, settlement and stop leave the
sole account non-negative. -/
theorem c1_witness :
    ScoresNonneg ([(1, ⟨"p", 1000, 0, 0, 0⟩)] : Dict PlayerStats) ∧
    ScoresNonneg (place_bet ⟨1, ⟨[], [], []⟩, .WAITING_FOR_BETS, none, []⟩
      ⟨1, [(1, ⟨"p", 1000, 0, 0, 0⟩)], [], 0⟩ 1 "p" .big 100 1).chat.player_stats ∧
    ScoresNonneg (payout ⟨1, ⟨[(1, 100)], [], []⟩, .GAME_OVER, some 9, [1]⟩
      ⟨1, [(1, ⟨"p", 900, 0, 0, 0⟩)], [], 0⟩ 2).chat.player_stats := by
  have h0 : ScoresNonneg ([(1, ⟨"p", 1000, 0, 0, 0⟩)] : Dict PlayerStats) := by
    intro up hup
    simp at hup
    rw [hup]
    decide
  have h1 : ScoresNonneg ([(1, ⟨"p", 900, 0, 0, 0⟩)] : Dict PlayerStats) := by
    intro up hup
    simp at hup
    rw [hup]
    decide
  have hb : BetsNonneg ⟨1, ⟨[(1, 100)], [], []⟩, .GAME_OVER, some 9, [1]⟩ := by
    intro bt ua hua
    cases bt with
    | big =>
      simp [BetBook.get] at hua
      rw [hua]
      decide
    | small => simp [BetBook.get] at hua
    | lucky => simp [BetBook.get] at hua
  exact ⟨h0,
    c1_amended_no_negative_balance.1 ⟨1, ⟨[], [], []⟩, .WAITING_FOR_BETS, none, []⟩
      ⟨1, [(1, ⟨"p", 1000, 0, 0, 0⟩)], [], 0⟩ 1 "p" .big 100 1 h0,
    c1_amended_no_negative_balance.2.2.1
      ⟨1, ⟨[(1, 100)], [], []⟩, .GAME_OVER, some 9, [1]⟩
      ⟨1, [(1, ⟨"p", 900, 0, 0, 0⟩)], [], 0⟩ 2 h1 hb⟩

/-- C5 counterexample: the claim that a failed bet leaves the rest of the chat
state unchanged is false — `place_bet` runs `setdefault` before validation, so
a new player's rejected 50-point bet still creates their account entry. -/
theorem c5_counterexample :
    (place_bet ⟨1, ⟨[], [], []⟩, .WAITING_FOR_BETS, none, []⟩ ⟨1, [], [], 0⟩
      5 "eve" .big 50 3).err = some .belowMinimum ∧
    (place_bet ⟨1, ⟨[], [], []⟩, .WAITING_FOR_BETS, none, []⟩ ⟨1, [], [], 0⟩
      5 "eve" .big 50 3).chat.player_stats ≠
      (⟨1, [], [], 0⟩ : ChatData).player_stats := by
  constructor
  · decide
  · decide

/-- C5 (amended): a bet with amount ≤ 0 or below the 100-point minimum fails
with the corresponding invalid-amount error, and a valid amount above the
player's balance fails with insufficient-funds, checked in that order; on
every failure the round (bet book and participants), the balance, wins and
losses of every account, the match history, idle streak and match counter are
unchanged — but the bettor's account is created with the initial score if it
was absent, and the bettor's last-active timestamp is refreshed. -/
theorem c5_failure_no_side_effects (g : DiceGame) (cd : ChatData)
    (uid : UserId) (username : String) (bt : BetType) (amount : Int)
    (now : Nat) :
    (amount ≤ 0 →
      (place_bet g cd uid username bt amount now).err = some .notPositive) ∧
    (0 < amount → amount < MIN_BET_AMOUNT →
      (place_bet g cd uid username bt amount now).err = some .belowMinimum) ∧
    (MIN_BET_AMOUNT ≤ amount → ∀ p, dget cd.player_stats uid = some p →
      p.score < amount →
      (place_bet g cd uid username bt amount now).err =
        some .insufficientFunds) ∧
    ((place_bet g cd uid username bt amount now).err.isSome →
      (place_bet g cd uid username bt amount now).game = g ∧
      (place_bet g cd uid username bt amount now).chat.match_counter =
        cd.match_counter ∧
      (place_bet g cd uid username bt amount now).chat.match_history =
        cd.match_history ∧
      (place_bet g cd uid username bt amount now).chat.consecutive_idle_matches
        = cd.consecutive_idle_matches ∧
      (∀ uid', uid' ≠ uid →
        dget (place_bet g cd uid username bt amount now).chat.player_stats uid'
          = dget cd.player_stats uid') ∧
      (∀ p, dget cd.player_stats uid = some p →
        dget (place_bet g cd uid username bt amount now).chat.player_stats uid
          = some { p with last_active := now }) ∧
      (dget cd.player_stats uid = none →
        dget (place_bet g cd uid username bt amount now).chat.player_stats uid
          = some ⟨username, INITIAL_PLAYER_SCORE, 0, 0, now⟩)) := by
  refine ⟨?_, ?_, ?_, ?_⟩
  · intro h0
    rw [place_bet_eq_nonpos g cd uid username bt amount now h0]
  · intro hpos hmin
    rw [place_bet_eq_below g cd uid username bt amount now (not_le.mpr hpos) hmin]
  · intro hmin p hp hlt
    have h0 : ¬ amount ≤ 0 := by
      unfold MIN_BET_AMOUNT at hmin
      omega
    have h1 : ¬ amount < MIN_BET_AMOUNT := not_lt.mpr hmin
    have h3 : (ensuredPlayer cd uid username now).score < amount := by
      unfold ensuredPlayer
      rw [hp]
      simpa using hlt
    rw [place_bet_eq_insufficient g cd uid username bt amount now h0 h1 h3]
  · intro hs
    rcases place_bet_chat_misc g cd uid username bt amount now with ⟨m1, m2, m3⟩
    refine ⟨place_bet_fail_game g cd uid username bt amount now hs,
      m1, m2, m3, ?_, ?_, ?_⟩
    · intro uid' hne
      rw [place_bet_fail_stats g cd uid username bt amount now hs]
      exact dget_dset_ne _ _ _ _ hne
    · intro p hp
      rw [place_bet_fail_stats g cd uid username bt amount now hs,
        dget_dset_self]
      unfold ensuredPlayer
      rw [hp]
      rfl
    · intro hp
      rw [place_bet_fail_stats g cd uid username bt amount now hs,
        dget_dset_self]
      unfold ensuredPlayer
      rw [hp]
      rfl

/-- Witness for C5 (amended): an existing player's over-balance bet fails
with insufficient-funds and leaves the round and chat bookkeeping unchanged. -/
theorem c5_witness :
    (MIN_BET_AMOUNT ≤ 500 ∧
      dget ([(1, ⟨"p", 200, 2, 3, 0⟩)] : Dict PlayerStats) 1 =
        some ⟨"p", 200, 2, 3, 0⟩ ∧ (200 : Int) < 500) ∧
    (place_bet ⟨1, ⟨[], [], []⟩, .WAITING_FOR_BETS, none, []⟩
      ⟨1, [(1, ⟨"p", 200, 2, 3, 0⟩)], [], 0⟩ 1 "p" .big 500 4).err =
      some .insufficientFunds ∧
    (place_bet ⟨1, ⟨[], [], []⟩, .WAITING_FOR_BETS, none, []⟩
      ⟨1, [(1, ⟨"p", 200, 2, 3, 0⟩)], [], 0⟩ 1 "p" .big 500 4).game =
      ⟨1, ⟨[], [], []⟩, .WAITING_FOR_BETS, none, []⟩ ∧
    dget (place_bet ⟨1, ⟨[], [], []⟩, .WAITING_FOR_BETS, none, []⟩
      ⟨1, [(1, ⟨"p", 200, 2, 3, 0⟩)], [], 0⟩ 1 "p" .big 500 4).chat.player_stats
      1 = some ⟨"p", 200, 2, 3, 4⟩ := by
  have hc := c5_failure_no_side_effects
    ⟨1, ⟨[], [], []⟩, .WAITING_FOR_BETS, none, []⟩
    ⟨1, [(1, ⟨"p", 200, 2, 3, 0⟩)], [], 0⟩ 1 "p" .big 500 4
  have herr := hc.2.2.1 (by decide) ⟨"p", 200, 2, 3, 0⟩ (by decide) (by decide)
  have hfail := hc.2.2.2 (by rw [herr]; rfl)
  exact ⟨⟨by decide, by decide, by decide⟩, herr, hfail.1,
    hfail.2.2.2.2.2.1 ⟨"p", 200, 2, 3, 0⟩ (by decide)⟩

/-- C3: when a round with at least one bet settles, every player with a bet
in the winning bucket is credited exactly their accumulated stake on that
outcome times the multiplier and has `wins` incremented by exactly one (even
when they also bet on losing outcomes), and every participant without a bet
on the winning outcome has `losses` incremented by exactly one with their
balance unchanged by the settlement. -/
theorem c3_settlement_effects (g : DiceGame) (cd : ChatData) (now : Nat)
    (r : Nat) (hres : g.result = some r)
    (hndw : NoDupKeys (g.bets.get (determine_winner r)))
    (hndp : g.participants.Nodup)
    (hany : anyBetsPlaced g = true)
    (hne : cd.player_stats.isEmpty = false)
    (hstake : ∀ uid ∈ g.participants, 0 < totalBet g uid) :
    (∀ uid amt p, dget (g.bets.get (determine_winner r)) uid = some amt →
      dget cd.player_stats uid = some p →
      dget (payout g cd now).chat.player_stats uid =
        some { p with
          score := p.score + amt * (payout g cd now).multiplier
          wins := p.wins + 1
          last_active := now } ∧
      dget (payout g cd now).payouts uid =
        some (amt * (payout g cd now).multiplier)) ∧
    (∀ uid p, uid ∈ g.participants →
      dget (g.bets.get (determine_winner r)) uid = none →
      dget cd.player_stats uid = some p →
      dget (payout g cd now).chat.player_stats uid =
        some { p with losses := p.losses + 1 }) := by
  have hmeq := payout_main_eq g cd now hany hne
  have hmult := (payout_winner_multiplier g cd now).2
  rw [hres] at hmult
  simp only [Option.getD_some] at hmult
  have hr0 : g.result.getD 0 = r := by rw [hres]; rfl
  rw [hr0] at hmeq
  constructor
  · intro uid amt p hamt hp
    have hmem : (uid, amt) ∈ g.bets.get (determine_winner r) :=
      mem_of_dget_eq_some _ _ _ hamt
    have hwfold := foldl_creditWinner_mem
      (if determine_winner r = .lucky then 5 else 2) now
      (g.bets.get (determine_winner r)) (cd.player_stats, []) uid amt
      hndw hmem p hp
    have hnotlose : dget (payoutLosers g (g.bets.get (determine_winner r))
        (payoutWinners (if determine_winner r = .lucky then 5 else 2) now
          cd.player_stats (g.bets.get (determine_winner r))).1) uid =
        dget (payoutWinners (if determine_winner r = .lucky then 5 else 2) now
          cd.player_stats (g.bets.get (determine_winner r))).1 uid := by
      unfold payoutLosers
      by_cases hpart : uid ∈ g.participants
      · rw [foldl_recordLoser_mem g _ g.participants _ uid hndp hpart]
        rw [if_pos (by rw [hamt]; rfl)]
      · exact foldl_recordLoser_not_mem g _ g.participants _ uid hpart
    constructor
    · rw [hmult, hmeq]
      show dget (payoutLosers g (g.bets.get (determine_winner r)) _) uid = _
      rw [hnotlose]
      exact hwfold.1
    · rw [hmult, hmeq]
      exact hwfold.2
  · intro uid p hpart hnone hp
    have hnotkeys : uid ∉ dkeys (g.bets.get (determine_winner r)) :=
      (dget_none_iff_not_mem_dkeys _ _).mp hnone
    have hwfold := foldl_creditWinner_not_mem
      (if determine_winner r = .lucky then 5 else 2) now
      (g.bets.get (determine_winner r)) (cd.player_stats, []) uid hnotkeys
    rw [hmeq]
    show dget (payoutLosers g (g.bets.get (determine_winner r)) _) uid = _
    unfold payoutLosers payoutWinners
    rw [foldl_recordLoser_mem g _ g.participants _ uid hndp hpart]
    rw [if_neg (by rw [hnone]; simp)]
    rw [if_pos (hstake uid hpart)]
    rw [hwfold.1, hp]
    rfl

/-- Witness for C3: spec Scenario B — one player stakes 100 on small and 100
on lucky, the roll is 7, so they are credited 500 and win exactly once; a
second player who staked only on big loses exactly once with balance
unchanged. -/
theorem c3_witness :
    dget (payout
      ⟨1, ⟨[(2, 100)], [(1, 100)], [(1, 100)]⟩, .GAME_OVER, some 7, [1, 2]⟩
      ⟨1, [(1, ⟨"p", 800, 0, 0, 0⟩), (2, ⟨"q", 400, 1, 1, 0⟩)], [], 0⟩
      9).chat.player_stats 1 = some ⟨"p", 1300, 1, 0, 9⟩ ∧
    dget (payout
      ⟨1, ⟨[(2, 100)], [(1, 100)], [(1, 100)]⟩, .GAME_OVER, some 7, [1, 2]⟩
      ⟨1, [(1, ⟨"p", 800, 0, 0, 0⟩), (2, ⟨"q", 400, 1, 1, 0⟩)], [], 0⟩
      9).chat.player_stats 2 = some ⟨"q", 400, 1, 2, 0⟩ := by
  have hc := c3_settlement_effects
    ⟨1, ⟨[(2, 100)], [(1, 100)], [(1, 100)]⟩, .GAME_OVER, some 7, [1, 2]⟩
    ⟨1, [(1, ⟨"p", 800, 0, 0, 0⟩), (2, ⟨"q", 400, 1, 1, 0⟩)], [], 0⟩
    9 7 rfl (by unfold NoDupKeys; decide) (by decide) (by decide) (by decide)
    (by decide)
  constructor
  · have h1 := (hc.1 1 100 ⟨"p", 800, 0, 0, 0⟩ (by decide) (by decide)).1
    rw [h1]
    have hm : (payout
      ⟨1, ⟨[(2, 100)], [(1, 100)], [(1, 100)]⟩, .GAME_OVER, some 7, [1, 2]⟩
      ⟨1, [(1, ⟨"p", 800, 0, 0, 0⟩), (2, ⟨"q", 400, 1, 1, 0⟩)], [], 0⟩
      9).multiplier = 5 := by decide
    rw [hm]
    decide
  · have h2 := hc.2 2 ⟨"q", 400, 1, 1, 0⟩ (by decide) (by decide) (by decide)
    rw [h2]

/-- C4: for every round and every sequence of bet placements in it, an
administrative stop before settlement credits each stored participant exactly
the sum of their stakes across the three outcome buckets, so every account
that existed before the round returns to its pre-round balance; the stop
touches neither wins, losses, the idle streak nor the match history, and it
clears the current round. -/
theorem c4_stop_restores_balances (cmds : List BetCmd) (cd0 : ChatData)
    (mid now : Nat) (cj rj : Option Nat) (nj : Bool) (nt ci : Option Nat)
    (ev : List Event) :
    (∀ uid p,
      dget (runBets (initGame mid) cd0 cmds).2.player_stats uid = some p →
      ∃ p', dget (stop_game now ⟨(runBets (initGame mid) cd0 cmds).2,
          some (runBets (initGame mid) cd0 cmds).1, cj, rj, nj, nt, ci,
          ev⟩).chat.player_stats uid = some p' ∧
        p'.score = p.score + totalBet (runBets (initGame mid) cd0 cmds).1 uid ∧
        p'.wins = p.wins ∧ p'.losses = p.losses) ∧
    (∀ uid p0, dget cd0.player_stats uid = some p0 →
      ∃ p', dget (stop_game now ⟨(runBets (initGame mid) cd0 cmds).2,
          some (runBets (initGame mid) cd0 cmds).1, cj, rj, nj, nt, ci,
          ev⟩).chat.player_stats uid = some p' ∧
        p'.score = p0.score ∧ p'.wins = p0.wins ∧ p'.losses = p0.losses) ∧
    (stop_game now ⟨(runBets (initGame mid) cd0 cmds).2,
        some (runBets (initGame mid) cd0 cmds).1, cj, rj, nj, nt, ci,
        ev⟩).chat.match_history = cd0.match_history ∧
    (stop_game now ⟨(runBets (initGame mid) cd0 cmds).2,
        some (runBets (initGame mid) cd0 cmds).1, cj, rj, nj, nt, ci,
        ev⟩).chat.consecutive_idle_matches = cd0.consecutive_idle_matches ∧
    (stop_game now ⟨(runBets (initGame mid) cd0 cmds).2,
        some (runBets (initGame mid) cd0 cmds).1, cj, rj, nj, nt, ci,
        ev⟩).game = none := by
  have hmisc := runBets_misc cmds (initGame mid) cd0
  have hstate : (runBets (initGame mid) cd0 cmds).1.state ≠ .GAME_OVER := by
    rw [hmisc.2.2.2]
    show GameState.WAITING_FOR_BETS ≠ GameState.GAME_OVER
    decide
  have hnd : ∀ bt : BetType,
      NoDupKeys ((runBets (initGame mid) cd0 cmds).1.bets.get bt) := by
    refine runBets_noDupKeys_bets cmds (initGame mid) cd0 ?_
    intro bt
    cases bt <;> exact noDupKeys_nil
  have se := stop_game_effect
    ⟨(runBets (initGame mid) cd0 cmds).2,
      some (runBets (initGame mid) cd0 cmds).1, cj, rj, nj, nt, ci, ev⟩
    (runBets (initGame mid) cd0 cmds).1 now rfl hstate hnd
  refine ⟨se.1, ?_, se.2.1.trans hmisc.2.1, se.2.2.1.trans hmisc.2.2.1,
    se.2.2.2.1⟩
  intro uid p0 hp0
  rcases runBets_account cmds (initGame mid) cd0 uid p0 hp0 with
    ⟨p, hp, hbal, hw, hl⟩
  rcases se.1 uid p hp with ⟨p', hp', hsc, hw', hl'⟩
  refine ⟨p', hp', ?_, hw'.trans hw, hl'.trans hl⟩
  have h0 : totalBet (initGame mid) uid = 0 := by
    simp [totalBet, initGame, lookup0, dget]
  rw [h0] at hbal
  omega

/-- Witness for C4: one 100-point bet by a player holding 1000 points, then a
stop — their balance returns to 1000 with wins and losses untouched. -/
theorem c4_witness :
    dget (⟨1, [(1, ⟨"p", 1000, 2, 3, 0⟩)], [], 4⟩ : ChatData).player_stats 1 =
      some ⟨"p", 1000, 2, 3, 0⟩ ∧
    ∃ p', dget (stop_game 9
        ⟨(runBets (initGame 1) ⟨1, [(1, ⟨"p", 1000, 2, 3, 0⟩)], [], 4⟩
            [⟨1, "p", .big, 100, 5⟩]).2,
          some (runBets (initGame 1) ⟨1, [(1, ⟨"p", 1000, 2, 3, 0⟩)], [], 4⟩
            [⟨1, "p", .big, 100, 5⟩]).1,
          some 1, none, false, none, none, []⟩).chat.player_stats 1 =
        some p' ∧ p'.score = 1000 ∧ p'.wins = 2 ∧ p'.losses = 3 :=
  ⟨by decide,
    (c4_stop_restores_balances [⟨1, "p", .big, 100, 5⟩]
      ⟨1, [(1, ⟨"p", 1000, 2, 3, 0⟩)], [], 4⟩ 1 9 (some 1) none false none
      none []).2.1 1 ⟨"p", 1000, 2, 3, 0⟩ (by decide)⟩

/-- C6 evidence: the arena's current round has been cleared (`game = None`,
as `stop_game` leaves it), yet the ROLL callback fired for the superseded
round — which is in the `GAME_CLOSED` state, as every round awaiting its roll
timer is — settles it anyway: the staleness guard at src/handlers.py line 397
is `current is not None and current != game and game.state != GAME_CLOSED`,
so it never fires for a closed round.  The ledger is credited (user 1 gains
200 points from the stale round's refunded 100-point bet on big), a match
history entry is appended, and the result message is sent, where the claim
requires a mutation-free no-op. -/
theorem c6_stale_roll_mutates :
    (⟨⟨2, [(1, ⟨"p", 0, 0, 0, 0⟩)], [], 0⟩, none, none, some 1, false, none,
      none, []⟩ : HState).game = none ∧
    (⟨1, ⟨[(1, 100)], [], []⟩, .GAME_CLOSED, none, [1]⟩ : DiceGame).state =
      .GAME_CLOSED ∧
    (roll_and_announce_scheduled 5 4 7
      ⟨1, ⟨[(1, 100)], [], []⟩, .GAME_CLOSED, none, [1]⟩
      ⟨⟨2, [(1, ⟨"p", 0, 0, 0, 0⟩)], [], 0⟩, none, none, some 1, false, none,
        none, []⟩).chat.player_stats = [(1, ⟨"p", 200, 1, 0, 7⟩)] ∧
    (roll_and_announce_scheduled 5 4 7
      ⟨1, ⟨[(1, 100)], [], []⟩, .GAME_CLOSED, none, [1]⟩
      ⟨⟨2, [(1, ⟨"p", 0, 0, 0, 0⟩)], [], 0⟩, none, none, some 1, false, none,
        none, []⟩).chat.match_history.length = 1 ∧
    (roll_and_announce_scheduled 5 4 7
      ⟨1, ⟨[(1, 100)], [], []⟩, .GAME_CLOSED, none, [1]⟩
      ⟨⟨2, [(1, ⟨"p", 0, 0, 0, 0⟩)], [], 0⟩, none, none, some 1, false, none,
        none, []⟩).events = [Event.resultAnnounced 1] := by
  decide

/-- C7 counterexample: firing the CLOSE callback a second time for the same
still-current round emits the bets-closed summary a second time — the
callback has no double-fire protection, so the claimed "no additional emitted
event" fails. -/
theorem c7_counterexample :
    (close_bets_scheduled ⟨1, ⟨[], [], []⟩, .WAITING_FOR_BETS, none, []⟩
      ⟨⟨2, [], [], 0⟩, some ⟨1, ⟨[], [], []⟩, .WAITING_FOR_BETS, none, []⟩,
        some 1, none, false, none, none, []⟩).events = [Event.betsClosed 1] ∧
    (close_bets_scheduled ⟨1, ⟨[], [], []⟩, .GAME_CLOSED, none, []⟩
      (close_bets_scheduled ⟨1, ⟨[], [], []⟩, .WAITING_FOR_BETS, none, []⟩
        ⟨⟨2, [], [], 0⟩, some ⟨1, ⟨[], [], []⟩, .WAITING_FOR_BETS, none, []⟩,
          some 1, none, false, none, none, []⟩)).events =
      [Event.betsClosed 1, Event.betsClosed 1] := by
  decide

/-- C7 (amended): firing the ROLL callback a second time once the round is
settled is a pure no-op (beyond dropping the already-cleared job reference)
with no emitted event; firing the CLOSE callback a second time for the same
still-current round leaves the round, ledger and history unchanged but emits
the bets-closed summary again and schedules a fresh ROLL timer. -/
theorem c7_second_fire (d1 d2 now : Nat) (sched : DiceGame) (s : HState) :
    (sched.state = .GAME_OVER →
      roll_and_announce_scheduled d1 d2 now sched s =
        { s with roll_and_announce_job := none }) ∧
    (∀ cur, s.game = some cur → cur.match_id = sched.match_id →
      cur.state = .GAME_CLOSED →
      close_bets_scheduled sched s =
        { s with
          close_bets_job := none
          roll_and_announce_job := some cur.match_id
          events := s.events ++ [Event.betsClosed cur.match_id] }) := by
  constructor
  · intro hstate
    unfold roll_and_announce_scheduled
    cases hg : s.game with
    | none => simp [hg, hstate]
    | some cur =>
      by_cases hid : cur.match_id = sched.match_id
      · simp [hg, hid, hstate]
      · simp [hg, hid, hstate]
  · intro cur hg hid hstate
    unfold close_bets_scheduled
    simp only [hg]
    rw [if_neg (by simp [hid])]
    have hcur : { cur with state := GameState.GAME_CLOSED } = cur := by
      obtain ⟨a, b, st, c, d⟩ := cur
      simp at hstate
      rw [hstate]
    rw [hcur]

/-- Witness for C7 (amended): a concrete settled round's second ROLL fire and
a concrete closed round's second CLOSE fire. -/
theorem c7_witness :
    roll_and_announce_scheduled 3 4 9
      ⟨1, ⟨[], [], []⟩, .GAME_OVER, some 7, []⟩
      ⟨⟨2, [], [], 0⟩, none, none, some 1, false, none, none,
        [Event.resultAnnounced 1]⟩ =
      ⟨⟨2, [], [], 0⟩, none, none, none, false, none, none,
        [Event.resultAnnounced 1]⟩ ∧
    close_bets_scheduled ⟨1, ⟨[], [], []⟩, .GAME_CLOSED, none, []⟩
      ⟨⟨2, [], [], 0⟩, some ⟨1, ⟨[], [], []⟩, .GAME_CLOSED, none, []⟩,
        none, some 1, false, none, none, [Event.betsClosed 1]⟩ =
      ⟨⟨2, [], [], 0⟩, some ⟨1, ⟨[], [], []⟩, .GAME_CLOSED, none, []⟩,
        none, some 1, false, none, none,
        [Event.betsClosed 1, Event.betsClosed 1]⟩ :=
  ⟨(c7_second_fire 3 4 9 ⟨1, ⟨[], [], []⟩, .GAME_OVER, some 7, []⟩
      ⟨⟨2, [], [], 0⟩, none, none, some 1, false, none, none,
        [Event.resultAnnounced 1]⟩).1 rfl,
   (c7_second_fire 0 0 0 ⟨1, ⟨[], [], []⟩, .GAME_CLOSED, none, []⟩
      ⟨⟨2, [], [], 0⟩, some ⟨1, ⟨[], [], []⟩, .GAME_CLOSED, none, []⟩,
        none, some 1, false, none, none, [Event.betsClosed 1]⟩).2
      ⟨1, ⟨[], [], []⟩, .GAME_CLOSED, none, []⟩ rfl rfl rfl⟩

/-- C8: settling a current, closed round with zero participants increments
the idle streak; while the streak stays below 3 no auto-stop fires and an
active sequence schedules its next round, so the third consecutive idle
settlement (streak 2 before it) is the one that fires exactly one auto-stop:
it clears the current round, the sequence counters and the pending timers,
and the sequence job runner opens no further round once the sequence state is
cleared; any successful bet placement resets the idle streak to zero. -/
theorem c8_idle_streak (d1 d2 now : Nat) (sched : DiceGame) (s : HState) :
    (s.game = some sched → sched.state = .GAME_CLOSED →
      sched.participants = [] →
      s.chat.consecutive_idle_matches + 1 < 3 →
      (roll_and_announce_scheduled d1 d2 now sched s).chat.consecutive_idle_matches
        = s.chat.consecutive_idle_matches + 1 ∧
      (roll_and_announce_scheduled d1 d2 now sched s).events =
        s.events ++ [Event.resultAnnounced sched.match_id] ∧
      (s.num_matches_total.isSome = true →
        (roll_and_announce_scheduled d1 d2 now sched s).next_game_job = true)) ∧
    (s.game = some sched → sched.state = .GAME_CLOSED →
      sched.participants = [] →
      s.chat.consecutive_idle_matches = 2 →
      (roll_and_announce_scheduled d1 d2 now sched s).chat.consecutive_idle_matches
        = 3 ∧
      (roll_and_announce_scheduled d1 d2 now sched s).events =
        s.events ++ [Event.resultAnnounced sched.match_id, Event.autoStopped] ∧
      (roll_and_announce_scheduled d1 d2 now sched s).game = none ∧
      (roll_and_announce_scheduled d1 d2 now sched s).num_matches_total = none ∧
      (roll_and_announce_scheduled d1 d2 now sched s).current_match_index = none ∧
      (roll_and_announce_scheduled d1 d2 now sched s).next_game_job = false ∧
      (roll_and_announce_scheduled d1 d2 now sched s).close_bets_job = none ∧
      (roll_and_announce_scheduled d1 d2 now sched s).roll_and_announce_job
        = none) ∧
    (∀ (uid : UserId) (username : String) (bt : BetType) (amount : Int)
        (bnow : Nat) (g : DiceGame),
      s.game = some g → g.state = .WAITING_FOR_BETS →
      (place_bet g s.chat uid username bt amount bnow).err = none →
      (handle_bet uid username bt amount bnow s).chat.consecutive_idle_matches
        = 0) ∧
    (s.num_matches_total = none →
      (manage_game_sequence s).events = s.events ∧
      (manage_game_sequence s).game = none ∧
      (manage_game_sequence s).next_game_job = false) := by
  have hidle := fun (g1 : DiceGame) (cd : ChatData) =>
    (payout_idle_counter g1 cd now).1
  refine ⟨?_, ?_, ?_, ?_⟩
  · intro hg hstate hparts hlt
    unfold roll_and_announce_scheduled
    simp only [hg, hstate, hparts]
    simp only [bne_self_eq_false, Bool.false_and, Bool.false_eq_true,
      if_false, reduceCtorEq, reduceIte, List.isEmpty_nil, if_true]
    rw [hidle]
    rw [if_neg (by omega)]
    by_cases hnum : s.num_matches_total.isSome
    · simp [hnum]
    · simp [hnum]
  · intro hg hstate hparts h2
    unfold roll_and_announce_scheduled
    simp only [hg, hstate, hparts]
    simp only [bne_self_eq_false, Bool.false_and, Bool.false_eq_true,
      if_false, reduceCtorEq, reduceIte, List.isEmpty_nil, if_true]
    rw [hidle]
    rw [h2]
    rw [if_pos (by omega)]
    refine ⟨rfl, ?_, rfl, rfl, rfl, rfl, rfl, rfl⟩
    simp
  · intro uid username bt amount bnow g hg hstate herr
    unfold handle_bet
    simp only [hg]
    simp [hstate, herr]
  · intro hnum
    unfold manage_game_sequence
    rw [hnum]
    exact ⟨rfl, rfl, rfl⟩

/-- Witness for C8: a concrete closed, empty round settling at idle streak 2
auto-stops with a single auto-stop event and everything cleared, and a
concrete successful 100-point bet resets the streak to zero. -/
theorem c8_witness :
    ((roll_and_announce_scheduled 2 3 9 ⟨4, ⟨[], [], []⟩, .GAME_CLOSED, none, []⟩
      ⟨⟨5, [], [], 2⟩, some ⟨4, ⟨[], [], []⟩, .GAME_CLOSED, none, []⟩, none,
        some 4, true, some 5, some 3, []⟩).chat.consecutive_idle_matches = 3 ∧
     (roll_and_announce_scheduled 2 3 9 ⟨4, ⟨[], [], []⟩, .GAME_CLOSED, none, []⟩
      ⟨⟨5, [], [], 2⟩, some ⟨4, ⟨[], [], []⟩, .GAME_CLOSED, none, []⟩, none,
        some 4, true, some 5, some 3, []⟩).events =
      [Event.resultAnnounced 4, Event.autoStopped] ∧
     (roll_and_announce_scheduled 2 3 9 ⟨4, ⟨[], [], []⟩, .GAME_CLOSED, none, []⟩
      ⟨⟨5, [], [], 2⟩, some ⟨4, ⟨[], [], []⟩, .GAME_CLOSED, none, []⟩, none,
        some 4, true, some 5, some 3, []⟩).game = none) ∧
    (handle_bet 1 "p" .big 100 6
      ⟨⟨5, [(1, ⟨"p", 1000, 0, 0, 0⟩)], [], 2⟩,
        some ⟨4, ⟨[], [], []⟩, .WAITING_FOR_BETS, none, []⟩, some 4, none,
        false, none, none, []⟩).chat.consecutive_idle_matches = 0 := by
  have hc := c8_idle_streak 2 3 9 ⟨4, ⟨[], [], []⟩, .GAME_CLOSED, none, []⟩
    ⟨⟨5, [], [], 2⟩, some ⟨4, ⟨[], [], []⟩, .GAME_CLOSED, none, []⟩, none,
      some 4, true, some 5, some 3, []⟩
  have h2 := hc.2.1 rfl rfl rfl rfl
  have hb := c8_idle_streak 2 3 9 ⟨4, ⟨[], [], []⟩, .GAME_CLOSED, none, []⟩
    ⟨⟨5, [(1, ⟨"p", 1000, 0, 0, 0⟩)], [], 2⟩,
      some ⟨4, ⟨[], [], []⟩, .WAITING_FOR_BETS, none, []⟩, some 4, none,
      false, none, none, []⟩
  refine ⟨⟨h2.1, ?_, h2.2.2.1⟩, ?_⟩
  · rw [h2.2.1]
    rfl
  · exact hb.2.2.1 1 "p" .big 100 6
      ⟨4, ⟨[], [], []⟩, .WAITING_FOR_BETS, none, []⟩ rfl rfl (by decide)

end DiceBot

